import Mathlib

/-!
# Verification development for the video player core

A shallow embedding of the bounded queues of `src/src/threadsafe_queue.h`
and of the pacing code of `src/src/videoplayer.cpp` (the copy in
`src/VideoPlayer.cpp` has the same bodies for the functions modelled here).

Modelling conventions.

* A C pointer that may be null is an `Option`; `none` is `nullptr`.
* A `std::queue<T *>` is a `List (Option T)`, head of the list = front.
* A call that starts with `cond.wait(lock, pred)` is a function into
  `Option`: `none` means that `pred` is false and the caller waits (the state
  is unchanged until another thread changes it), `some r` is the result of
  the call once `pred` holds. Each queue method runs under the queue mutex,
  so a method is one atomic step of the model.
* `double` is modelled by `ℚ`: arithmetic is exact and rounding is not
  represented. The one `double` of the code that is infinite or NaN on values
  a stream can carry, the `fps` of `render_video_frame` for an
  `avg_frame_rate` with a zero denominator, is a `Double`; a time base has a
  non-zero denominator.
* `int` / `unsigned int` values are `Int` / `Nat` with explicit wrap-around
  where the source converts between them.
* The demux task and the decode tasks run against other threads and the
  codec library; each is a function from the values it reads from outside,
  one record per loop iteration, to the list of the calls it makes, in order.
  `main_loop` likewise takes, per iteration, the members written by the other
  threads as the iteration finds them.
* The audio callback returns an `Outcome`, which tells a call that waits in
  `pop` from one that returns. An iteration of its loop is a function of the
  state at its start. The callback stores the cursors of `audio_buf` without
  a lock; the one state inside an iteration whose cursors are not those of
  its start or of its end, between the two stores of the refill, is
  `refill_size_stored`.
-/

namespace VP

/-! ## Data carried by the queues -/

/-- The fields of FFmpeg's `AVPacket` that the player reads, plus an
identity for the buffer it owns. -/
structure AVPacket where
  stream_index : Int
  ident : Nat
deriving DecidableEq

/-- The fields of FFmpeg's `AVFrame` that the player reads, plus an
identity for the buffer it owns. -/
structure AVFrame where
  best_effort_timestamp : Int
  nb_samples : Int
  ident : Nat
deriving DecidableEq

/-! ## threadsafe_queue.h -/

/-- Conversion of an `int` to `size_t` (64 bit), as the usual arithmetic
conversions do in `queue.size() < max_size`. -/
def size_t_of_int (n : Int) : Nat := (n % 2 ^ 64).toNat

/-- The state of `struct PacketQueue` / `struct FrameQueue`: the two structs
have the same members and the same method bodies up to the element type and
the default `max_size`. -/
structure TSQueue (α : Type) where
  queue : List (Option α)
  max_size : Int
  quit : Bool

/-- State of `struct PacketQueue`. -/
abbrev PacketQueue := TSQueue AVPacket

/-- State of `struct FrameQueue`. -/
abbrev FrameQueue := TSQueue AVFrame

/-- A default-constructed `PacketQueue`: empty, `max_size = 300`, `quit{false}`. -/
def PacketQueue.new : PacketQueue := { queue := [], max_size := 300, quit := false }

/-- A default-constructed `FrameQueue`: empty, `max_size = 30`, `quit{false}`. -/
def FrameQueue.new : FrameQueue := { queue := [], max_size := 30, quit := false }

namespace TSQueue

variable {α : Type}

/-- The method `push(pkt)`. The result is the new state and the items released
with `av_packet_free` / `av_frame_free`; `none` when the wait predicate
`queue.size() < max_size || quit` is false. -/
def push (q : TSQueue α) (pkt : Option α) : Option (TSQueue α × List α) :=
  if (decide (q.queue.length < size_t_of_int q.max_size) || q.quit) = true then
    if q.quit = true then
      -- if (pkt) av_packet_free(&pkt); return;
      some (q, pkt.toList)
    else
      some ({ q with queue := q.queue ++ [pkt] }, [])
  else
    none

/-- The method `pop()`. The result is the new state and the returned pointer;
`none` when the wait predicate `!queue.empty() || quit` is false. -/
def pop (q : TSQueue α) : Option (TSQueue α × Option α) :=
  if (!q.queue.isEmpty || q.quit) = true then
    if (q.quit && q.queue.isEmpty) = true then
      some (q, none)
    else
      match q.queue with
      | pkt :: rest => some ({ q with queue := rest }, pkt)
      | [] => none -- not reached: the predicate and the test above exclude it
  else
    none

/-- The method `size()` of `PacketQueue`. -/
def size (q : TSQueue α) : Nat := q.queue.length

/-- The method `peek()` of `FrameQueue`. -/
def peek (q : TSQueue α) : Option α :=
  match q.queue with
  | [] => none
  | frame :: _ => frame

/-- The method `abort()`: `quit = true` (and a wake-up of all waiters). -/
def abort (q : TSQueue α) : TSQueue α := { q with quit := true }

/-- The loop of `flush()`: pops the front and frees it until the queue is
empty; the second component accumulates the non-null items freed. -/
def flush_loop : List (Option α) → List α → List (Option α) × List α
  | [], freed => ([], freed)
  | pkt :: rest, freed => flush_loop rest (freed ++ pkt.toList)

/-- The method `flush()`: the new state and the items released. -/
def flush (q : TSQueue α) : TSQueue α × List α :=
  let r := flush_loop q.queue []
  ({ q with queue := r.1 }, r.2)

end TSQueue

/-- One call on a queue. -/
inductive QueueOp (α : Type) where
  | push (item : Option α)
  | pop
  | abort
  | flush

/-- One completed call: the new state and the values returned by `pop`
(a singleton for `pop`, empty for the others); `none` when the call waits. -/
def step {α : Type} (q : TSQueue α) : QueueOp α → Option (TSQueue α × List (Option α))
  | .push item => (q.push item).map (fun r => (r.1, []))
  | .pop => q.pop.map (fun r => (r.1, [r.2]))
  | .abort => some (q.abort, [])
  | .flush => some (q.flush.1, [])

/-- A sequence of calls, each completing before the next starts: the final
state and the values returned by the pops, in order; `none` when some call
would wait. -/
def exec {α : Type} : TSQueue α → List (QueueOp α) → Option (TSQueue α × List (Option α))
  | q, [] => some (q, [])
  | q, op :: ops =>
    match step q op with
    | none => none
    | some (q1, out1) =>
      match exec q1 ops with
      | none => none
      | some (q2, out2) => some (q2, out1 ++ out2)

/-- The items handed to `push` in a sequence of calls, in order. -/
def pushed {α : Type} : List (QueueOp α) → List (Option α)
  | [] => []
  | .push item :: ops => item :: pushed ops
  | _ :: ops => pushed ops

/-- Holds when the sequence consists of `push` and `pop` calls only. -/
def push_pop_only {α : Type} : List (QueueOp α) → Bool
  | [] => true
  | .push _ :: ops => push_pop_only ops
  | .pop :: ops => push_pop_only ops
  | _ :: _ => false

/-! ## videoplayer.h / videoplayer.cpp -/

/-- FFmpeg's `AVRational`. -/
structure AVRational where
  num : Int
  den : Int
deriving DecidableEq

/-- FFmpeg's `av_q2d`, `a.num / (double) a.den`, for a rational with a non-zero
denominator: the quotient over `ℚ`. (At a zero denominator this is `0`, which
is not the value of the code; `av_q2d_ieee` covers that case.) -/
def av_q2d (a : AVRational) : ℚ := (a.num : ℚ) / (a.den : ℚ)

/-- A `double` that may be infinite or NaN. A finite value is a rational, as
for every other `double` of the model. -/
inductive Double where
  | finite (value : ℚ)
  | pos_inf
  | neg_inf
  | nan
deriving DecidableEq

/-- FFmpeg's `av_q2d`, `a.num / (double) a.den`, in IEEE arithmetic: with a zero
denominator the quotient is `+inf` for a positive numerator, `-inf` for a
negative one, and NaN for `0 / 0`. -/
def av_q2d_ieee (a : AVRational) : Double :=
  if a.den = 0 then
    if 0 < a.num then Double.pos_inf
    else if a.num < 0 then Double.neg_inf
    else Double.nan
  else
    Double.finite (av_q2d a)

/-- The fields of FFmpeg's `AVStream` that the player reads. -/
structure AVStream where
  time_base : AVRational
  avg_frame_rate : AVRational
deriving DecidableEq

/-- The field of FFmpeg's `AVCodecContext` that the clock reads. -/
structure AVCodecContext where
  sample_rate : Int
deriving DecidableEq

/-- FFmpeg's `AV_NOPTS_VALUE`, `INT64_MIN`. -/
def AV_NOPTS_VALUE : Int := -(2 ^ 63)

/-- The value `#define AV_SYNC_THRESHOLD 0.01`. -/
def AV_SYNC_THRESHOLD : ℚ := 1 / 100

/-- The value `#define AV_NOSYNC_THRESHOLD 1.0`. -/
def AV_NOSYNC_THRESHOLD : ℚ := 1

/-- FFmpeg's `av_get_bytes_per_sample(AV_SAMPLE_FMT_S16)`: 2 bytes. -/
def av_get_bytes_per_sample_S16 : Int := 2

/-- An `int` result reduced to 32 bits, two's complement. -/
def int_wrap (z : Int) : Int := (z + 2 ^ 31) % 2 ^ 32 - 2 ^ 31

/-- The difference `a - b` of two `unsigned int`, modulo `2 ^ 32`. -/
def unsigned_sub (a b : Nat) : Nat := (((a : Int) - (b : Int)) % 2 ^ 32).toNat

/-- Conversion of an `unsigned int` to `int`. -/
def int_of_unsigned (n : Nat) : Int := int_wrap (n : Int)

/-- Conversion `static_cast<Uint32>(x)` of a non-negative `double`:
truncation, reduced to 32 bits. -/
def Uint32_of_double (x : ℚ) : Nat := (Int.toNat ⌊x⌋) % 2 ^ 32

/-- The members of `class VideoPlayer` that the pipeline and the pacing code
read or write. `video_stream` and `audio_codec_ctx` are dereferenced without a
null test by the code modelled here, so they are plain values. `audio_buf` is
the contents of the byte array, first byte first. -/
structure VideoPlayer where
  video_stream : AVStream
  audio_stream : Option AVStream
  audio_codec_ctx : AVCodecContext
  video_stream_index : Int
  audio_stream_index : Int
  video_q : PacketQueue
  audio_q : PacketQueue
  video_frame_q : FrameQueue
  audio_frame_q : FrameQueue
  quit : Bool
  audio_clock : ℚ
  frame_timer : ℚ
  frame_last_pts : ℚ
  frame_last_delay : ℚ
  audio_buf_size : Nat
  audio_buf_index : Nat
  audio_buf : List Nat

/-- What one call of `render_video_frame` does to the outside world, in
order. -/
inductive Event where
  | log_drop (diff : ℚ)
  | SDL_Delay (ms : Nat)
  | display_frame (frame : AVFrame)
  | av_frame_free (frame : AVFrame)
deriving DecidableEq

namespace VideoPlayer

/-- The method `get_audio_clock()`; `now` is the reading of `av_gettime()`
in microseconds. -/
def get_audio_clock (s : VideoPlayer) (now : Int) : ℚ :=
  if s.audio_stream_index = -1 then
    (now : ℚ) / 1000000
  else
    let pts : ℚ := s.audio_clock
    let hw_buf_size : Int := int_of_unsigned (unsigned_sub s.audio_buf_size s.audio_buf_index)
    let bytes_per_sec : Int :=
      match s.audio_stream with
      | some _ => int_wrap (int_wrap (s.audio_codec_ctx.sample_rate * 2) * av_get_bytes_per_sample_S16)
      | none => 0
    if bytes_per_sec > 0 then
      pts - (hw_buf_size : ℚ) / (bytes_per_sec : ℚ)
    else
      pts

/-- Lines 325-330 of `render_video_frame`: the `video_pts` of the frame. -/
def video_pts_of (s : VideoPlayer) (frame : AVFrame) : ℚ :=
  let video_pts : ℚ :=
    if frame.best_effort_timestamp = AV_NOPTS_VALUE then 0 else (frame.best_effort_timestamp : ℚ)
  let video_pts : ℚ := video_pts * av_q2d s.video_stream.time_base
  if video_pts = 0 then s.frame_last_pts + s.frame_last_delay else video_pts

/-- Lines 331-336 of `render_video_frame`: the `frame_delay`. The override
is `(fps > 0) ? (1.0 / fps) : 0.040` with `fps = av_q2d(avg_frame_rate)`: for
`fps = +inf` the test holds and `1.0 / fps` is `0`; for `-inf` and for NaN the
test fails. -/
def frame_delay_of (s : VideoPlayer) (video_pts : ℚ) : ℚ :=
  let frame_delay : ℚ := video_pts - s.frame_last_pts
  if frame_delay ≤ 0 ∨ frame_delay > 1 then
    match av_q2d_ieee s.video_stream.avg_frame_rate with
    | Double.finite fps => if fps > 0 then 1 / fps else 40 / 1000
    | Double.pos_inf => 0
    | Double.neg_inf => 40 / 1000
    | Double.nan => 40 / 1000
  else
    frame_delay

/-- Lines 346-350 of `render_video_frame`: the `sync_delay`. -/
def sync_delay_of (frame_delay diff : ℚ) : ℚ :=
  let sync_delay : ℚ := frame_delay + diff
  if sync_delay < AV_SYNC_THRESHOLD then AV_SYNC_THRESHOLD else sync_delay

/-- Lines 352-356 of `render_video_frame`: the `actual_delay`; `now` is the
reading of `av_gettime()` in microseconds. -/
def actual_delay_of (frame_timer : ℚ) (now : Int) : ℚ :=
  let actual_delay : ℚ := frame_timer - (now : ℚ) / 1000000
  if actual_delay < 10 / 1000 then 10 / 1000 else actual_delay

/-- The body of `render_video_frame` after a non-null `frame` was popped.
`clock_now` is the reading of `av_gettime()` inside `get_audio_clock`,
`delay_now` the one taken for `actual_delay`. The `unique_ptr` releases the
frame when the function returns. -/
def render_frame (s : VideoPlayer) (frame : AVFrame) (clock_now delay_now : Int) :
    VideoPlayer × List Event :=
  let video_pts := video_pts_of s frame
  let frame_delay := frame_delay_of s video_pts
  let s1 := { s with frame_last_delay := frame_delay, frame_last_pts := video_pts }
  let audio_pts := get_audio_clock s1 clock_now
  let diff := video_pts - audio_pts
  if diff < -AV_NOSYNC_THRESHOLD then
    (s1, [Event.log_drop diff, Event.av_frame_free frame])
  else
    let sync_delay := sync_delay_of frame_delay diff
    let s2 := { s1 with frame_timer := s1.frame_timer + sync_delay }
    let actual_delay := actual_delay_of s2.frame_timer delay_now
    (s2, [Event.SDL_Delay (Uint32_of_double (actual_delay * 1000 + 1 / 2)),
          Event.display_frame frame, Event.av_frame_free frame])

/-- The method `render_video_frame()`: `none` when `video_frame_q.pop()`
waits, otherwise the new state and the events of the call. -/
def render_video_frame (s : VideoPlayer) (clock_now delay_now : Int) :
    Option (VideoPlayer × List Event) :=
  match s.video_frame_q.pop with
  | none => none
  | some (q, none) => some ({ s with video_frame_q := q, quit := true }, [])
  | some (q, some frame) =>
    some (render_frame { s with video_frame_q := q } frame clock_now delay_now)

/-- The value `diff = video_pts - audio_pts` that `render_video_frame`
computes for `frame`. -/
def diff_of (s : VideoPlayer) (frame : AVFrame) (clock_now : Int) : ℚ :=
  video_pts_of s frame - get_audio_clock s clock_now

end VideoPlayer

/-- Holds when the event is a sleep. -/
def Event.is_sleep : Event → Bool
  | .SDL_Delay _ => true
  | _ => false

/-- Holds when the event hands a frame to `display_frame`. -/
def Event.is_display : Event → Bool
  | .display_frame _ => true
  | _ => false

/-! ### main_loop -/

/-- The value of SDL's event type `SDL_QUIT`, 0x100. -/
def SDL_QUIT : Nat := 256

/-- What one iteration of `main_loop` takes from outside the main thread:
the types of the events that `SDL_PollEvent` delivers, the members that the
decode thread and the audio callback write (as they stand when the iteration
reads them), and the two readings of `av_gettime()`. -/
structure Tick where
  events : List Nat
  video_frame_q : FrameQueue
  audio_clock : ℚ
  audio_buf_size : Nat
  audio_buf_index : Nat
  clock_now : Int
  delay_now : Int

namespace VideoPlayer

/-- The inner loop of `main_loop`: `quit = true` for each polled event of
type `SDL_QUIT`. -/
def poll_events (s : VideoPlayer) : List Nat → VideoPlayer
  | [] => s
  | type :: rest =>
    if type = SDL_QUIT then poll_events { s with quit := true } rest else poll_events s rest

/-- The members written by the other threads, as the iteration finds them. -/
def with_tick (s : VideoPlayer) (t : Tick) : VideoPlayer :=
  { s with
    video_frame_q := t.video_frame_q
    audio_clock := t.audio_clock
    audio_buf_size := t.audio_buf_size
    audio_buf_index := t.audio_buf_index }

/-- The method `main_loop()`, one `Tick` per iteration: the state when the
loop ends, or when the ticks are used up, and the events of the
`render_video_frame` calls made; `none` when a call waits in `pop`. -/
def main_loop : VideoPlayer → List Tick → Option (VideoPlayer × List Event)
  | s, [] => some (s, [])
  | s, t :: rest =>
    if s.quit = true then
      some (s, [])
    else
      let s1 := poll_events s t.events
      if s1.quit = true then
        some (s1, [])
      else
        match render_video_frame (with_tick s1 t) t.clock_now t.delay_now with
        | none => none
        | some (s2, events) =>
          match main_loop s2 rest with
          | none => none
          | some (s3, later) => some (s3, events ++ later)

end VideoPlayer

/-! ### audio_callback -/

/-- How a call that may wait or dereference a pointer ends. -/
inductive Outcome (α : Type) where
  | done (a : α)
  | waits
  | fault
  | unfinished

/-- What `swr_convert` does: its return value and the bytes it writes at
the start of `audio_buf`. -/
structure SwrResult where
  converted_samples : Int
  data : List Nat

/-- Conversion of an `int` to `unsigned int`. -/
def unsigned_of_int (z : Int) : Nat := (z % 2 ^ 32).toNat

namespace VideoPlayer

/-- The method `resample_audio_frame()`: the new state and the returned
`int`. `waits` when `audio_frame_q.pop()` waits, `fault` when the timestamp
is known and `audio_stream` is null. `swr` is what `swr_convert` does with
the popped frame. -/
def resample_audio_frame (s : VideoPlayer) (swr : AVFrame → SwrResult) :
    Outcome (VideoPlayer × Int) :=
  match s.audio_frame_q.pop with
  | none => Outcome.waits
  | some (q, none) => Outcome.done ({ s with audio_frame_q := q }, -1)
  | some (q, some frame) =>
    let s1 := { s with audio_frame_q := q }
    let clocked : Option VideoPlayer :=
      if frame.best_effort_timestamp ≠ AV_NOPTS_VALUE then
        match s1.audio_stream with
        | some stream =>
          some { s1 with
                 audio_clock := (frame.best_effort_timestamp : ℚ) * av_q2d stream.time_base }
        | none => none
      else
        some s1
    match clocked with
    | none => Outcome.fault
    | some s2 =>
      let out_channels : Int := 2
      let r := swr frame
      let s3 := { s2 with audio_buf := r.data ++ s2.audio_buf.drop r.data.length }
      if r.converted_samples < 0 then
        Outcome.done (s3, -1)
      else
        Outcome.done
          (s3, int_wrap (int_wrap (r.converted_samples * out_channels) *
            av_get_bytes_per_sample_S16))

/-- The refill of `audio_callback` up to the store of `audio_buf_size`
(lines 386-395): `audio_buf_size` has its new value and `audio_buf_index`
still its old one. The callback holds no lock here, so this is a state that
`get_audio_clock` can read on the main thread. -/
def refill_size_stored (s : VideoPlayer) (swr : AVFrame → SwrResult) : Outcome VideoPlayer :=
  match resample_audio_frame s swr with
  | Outcome.done (s1, audio_size) =>
    if audio_size < 0 then
      Outcome.done
        { s1 with
          audio_buf_size := 1024
          audio_buf := List.replicate 1024 0 ++ s1.audio_buf.drop 1024 }
    else
      Outcome.done { s1 with audio_buf_size := unsigned_of_int audio_size }
  | Outcome.waits => Outcome.waits
  | Outcome.fault => Outcome.fault
  | Outcome.unfinished => Outcome.unfinished

/-- The refill of `audio_callback`, run when
`audio_buf_index >= audio_buf_size`: the store of `audio_buf_size`, then the
store `audio_buf_index = 0` (line 396). -/
def refill_audio_buf (s : VideoPlayer) (swr : AVFrame → SwrResult) : Outcome VideoPlayer :=
  match refill_size_stored s swr with
  | Outcome.done s2 => Outcome.done { s2 with audio_buf_index := 0 }
  | Outcome.waits => Outcome.waits
  | Outcome.fault => Outcome.fault
  | Outcome.unfinished => Outcome.unfinished

/-- One iteration of the loop `while (len > 0)` of `audio_callback`:
`done none` when the iteration returns from the callback because `quit` is
set; otherwise the new state, the new `len`, and the bytes mixed into
`stream`. -/
def audio_callback_iter (s : VideoPlayer) (len : Int) (swr : AVFrame → SwrResult) :
    Outcome (Option (VideoPlayer × Int × List Nat)) :=
  if s.quit = true then
    Outcome.done none
  else
    let refilled : Outcome VideoPlayer :=
      if s.audio_buf_index ≥ s.audio_buf_size then refill_audio_buf s swr else Outcome.done s
    match refilled with
    | Outcome.done s1 =>
      let len_to_copy : Int := int_of_unsigned (unsigned_sub s1.audio_buf_size s1.audio_buf_index)
      let len_to_copy : Int := if len_to_copy > len then len else len_to_copy
      let mixed := (s1.audio_buf.drop s1.audio_buf_index).take (unsigned_of_int len_to_copy)
      Outcome.done
        (some ({ s1 with
                 audio_buf_index := unsigned_of_int ((s1.audio_buf_index : Int) + len_to_copy) },
               int_wrap (len - len_to_copy), mixed))
    | Outcome.waits => Outcome.waits
    | Outcome.fault => Outcome.fault
    | Outcome.unfinished => Outcome.unfinished

/-- The loop of `audio_callback(userdata, stream, len)`, after
`SDL_memset(stream, 0, len)`: the state when the callback returns and the
bytes mixed into `stream`, in order. `fuel` bounds the number of
iterations; `unfinished` when it is used up. -/
def audio_callback : Nat → VideoPlayer → Int → (AVFrame → SwrResult) →
    Outcome (VideoPlayer × List Nat)
  | 0, s, len, _ => if len > 0 then Outcome.unfinished else Outcome.done (s, [])
  | fuel + 1, s, len, swr =>
    if len > 0 then
      match audio_callback_iter s len swr with
      | Outcome.done none => Outcome.done (s, [])
      | Outcome.done (some (s1, len1, mixed)) =>
        match audio_callback fuel s1 len1 swr with
        | Outcome.done (s2, later) => Outcome.done (s2, mixed ++ later)
        | Outcome.waits => Outcome.waits
        | Outcome.fault => Outcome.fault
        | Outcome.unfinished => Outcome.unfinished
      | Outcome.waits => Outcome.waits
      | Outcome.fault => Outcome.fault
      | Outcome.unfinished => Outcome.unfinished
    else
      Outcome.done (s, [])

end VideoPlayer

/-- What the demux task does to the outside world. -/
inductive DemuxAction where
  | sleep_for (ms : Nat)
  | push_video (pkt : Option AVPacket)
  | push_audio (pkt : Option AVPacket)
  | av_packet_free (pkt : AVPacket)
  | av_packet_free_unread
deriving DecidableEq

/-- What one iteration of the loop of `demux_thread_entry` takes from
outside: the value of `quit` read by the loop test, the four queues as the
iteration finds them, and what `av_read_frame` delivers (`none` when it
returns a negative value, otherwise the packet it filled). -/
structure DemuxStep where
  quit : Bool
  video_q : PacketQueue
  audio_q : PacketQueue
  video_frame_q : FrameQueue
  audio_frame_q : FrameQueue
  read : Option AVPacket

/-- The test at the head of the loop body of `demux_thread_entry`; each
comparison is between a `size_t` and an `int`. -/
def backpressure (audio_stream_index : Int) (st : DemuxStep) : Bool :=
  decide (st.video_q.size > size_t_of_int st.video_q.max_size) ||
    (decide (audio_stream_index ≠ -1) &&
      decide (st.audio_q.size > size_t_of_int st.audio_q.max_size)) ||
    decide (st.video_frame_q.queue.length > size_t_of_int st.video_frame_q.max_size) ||
    (decide (audio_stream_index ≠ -1) &&
      decide (st.audio_frame_q.queue.length > size_t_of_int st.audio_frame_q.max_size))

/-- The routing of one packet read by `demux_thread_entry`. -/
def route_packet (video_stream_index audio_stream_index : Int) (packet : AVPacket) :
    DemuxAction :=
  if packet.stream_index = video_stream_index then
    DemuxAction.push_video (some packet)
  else if packet.stream_index = audio_stream_index then
    DemuxAction.push_audio (some packet)
  else
    DemuxAction.av_packet_free packet

/-- The loop `while (!quit)` of `demux_thread_entry`, one `DemuxStep` per
iteration; a list that is used up stands for a loop test that reads
`quit = true`. -/
def demux_loop (video_stream_index audio_stream_index : Int) :
    List DemuxStep → List DemuxAction
  | [] => []
  | st :: rest =>
    if st.quit = true then
      []
    else if backpressure audio_stream_index st = true then
      DemuxAction.sleep_for 10 :: demux_loop video_stream_index audio_stream_index rest
    else
      match st.read with
      | none => [DemuxAction.av_packet_free_unread]
      | some packet =>
        route_packet video_stream_index audio_stream_index packet ::
          demux_loop video_stream_index audio_stream_index rest

/-- The method `demux_thread_entry()`: what it does, in order. -/
def VideoPlayer.demux_thread_entry (s : VideoPlayer) (steps : List DemuxStep) :
    List DemuxAction :=
  demux_loop s.video_stream_index s.audio_stream_index steps ++
    [DemuxAction.push_video none] ++
    (if s.audio_stream_index ≠ -1 then [DemuxAction.push_audio none] else [])

/-- The arguments of the calls `video_q.push(...)`, in order. -/
def video_pushes : List DemuxAction → List (Option AVPacket)
  | [] => []
  | DemuxAction.push_video pkt :: rest => pkt :: video_pushes rest
  | _ :: rest => video_pushes rest

/-- The arguments of the calls `audio_q.push(...)`, in order. -/
def audio_pushes : List DemuxAction → List (Option AVPacket)
  | [] => []
  | DemuxAction.push_audio pkt :: rest => pkt :: audio_pushes rest
  | _ :: rest => audio_pushes rest

/-- The packets that the loop of `demux_thread_entry` reads and routes, in
order. -/
def packets_read (audio_stream_index : Int) : List DemuxStep → List AVPacket
  | [] => []
  | st :: rest =>
    if st.quit = true then
      []
    else if backpressure audio_stream_index st = true then
      packets_read audio_stream_index rest
    else
      match st.read with
      | none => []
      | some packet => packet :: packets_read audio_stream_index rest

/-- FFmpeg's `AVERROR(EAGAIN)`. -/
def AVERROR_EAGAIN : Int := -11

/-- FFmpeg's `AVERROR_EOF`, `-MKTAG('E','O','F',' ')`. -/
def AVERROR_EOF : Int := -541478725

/-- What a decode task does to the outside world. -/
inductive DecodeAction where
  | log_alloc_failure
  | log_decode_error
  | av_packet_free (pkt : AVPacket)
  | send_flush
  | push_frame (frame : Option AVFrame)
  | av_frame_free_scratch
deriving DecidableEq

/-- One call of `avcodec_receive_frame` and, for the case that the task goes
on to clone the frame, what `av_frame_clone` returns (`none` = `nullptr`). -/
structure Received where
  ret : Int
  clone : Option AVFrame

/-- What one iteration of the loop `while (!quit)` of a decode task takes
from outside: the value of `quit` read by the loop test, what the pop of the
packet queue returns, what `avcodec_send_packet` returns, and the calls of
`avcodec_receive_frame` that follow. -/
structure DecodeStep where
  quit : Bool
  pkt : Option AVPacket
  send_ret : Int
  received : List Received

/-- The loop `while (true)` after a packet was sent; a list that is used up
stands for a call that ends the loop. -/
def receive_loop : List Received → List DecodeAction
  | [] => []
  | r :: rest =>
    if r.ret = AVERROR_EAGAIN ∨ r.ret = AVERROR_EOF then
      []
    else if r.ret < 0 then
      [DecodeAction.log_decode_error]
    else
      DecodeAction.push_frame r.clone :: receive_loop rest

/-- The loop `while (true)` after the flush packet was sent; a list that is
used up stands for a call that ends the loop. -/
def drain_loop : List Received → List DecodeAction
  | [] => []
  | r :: rest =>
    if r.ret ≠ 0 then [] else DecodeAction.push_frame r.clone :: drain_loop rest

/-- The loop `while (!quit)` of a decode task, one `DecodeStep` per
iteration; a list that is used up stands for a loop test that reads
`quit = true`. -/
def decode_loop : List DecodeStep → List DecodeAction
  | [] => []
  | st :: rest =>
    if st.quit = true then
      []
    else
      match st.pkt with
      | none => []
      | some pkt =>
        if st.send_ret ≠ 0 then
          DecodeAction.av_packet_free pkt :: decode_loop rest
        else
          DecodeAction.av_packet_free pkt :: (receive_loop st.received ++ decode_loop rest)

/-- The body shared by `video_decode_thread_entry()` and
`audio_decode_thread_entry()`, which differ in the queues and the codec
context they name: what the task does, in order. `alloc` is what
`av_frame_alloc()` returns, `drained` the calls of `avcodec_receive_frame`
after the flush packet. -/
def decode_thread_entry (alloc : Option AVFrame) (steps : List DecodeStep)
    (drained : List Received) : List DecodeAction :=
  match alloc with
  | none => [DecodeAction.log_alloc_failure]
  | some _ =>
    decode_loop steps ++ [DecodeAction.send_flush] ++ drain_loop drained ++
      [DecodeAction.av_frame_free_scratch, DecodeAction.push_frame none]

/-- The method `video_decode_thread_entry()`; its pushes go to
`video_frame_q`. -/
def video_decode_thread_entry (alloc : Option AVFrame) (steps : List DecodeStep)
    (drained : List Received) : List DecodeAction :=
  decode_thread_entry alloc steps drained

/-- The method `audio_decode_thread_entry()`; its pushes go to
`audio_frame_q`. -/
def audio_decode_thread_entry (alloc : Option AVFrame) (steps : List DecodeStep)
    (drained : List Received) : List DecodeAction :=
  decode_thread_entry alloc steps drained

/-- The arguments of the calls `push(...)` on the frame queue, in order. -/
def frame_pushes : List DecodeAction → List (Option AVFrame)
  | [] => []
  | DecodeAction.push_frame frame :: rest => frame :: frame_pushes rest
  | _ :: rest => frame_pushes rest

/-! ## Example states -/

/-- A 25 fps video stream with time base 1/1000. -/
def demo_video_stream : AVStream :=
  { time_base := { num := 1, den := 1000 }, avg_frame_rate := { num := 25, den := 1 } }

/-- A 44100 Hz audio stream. -/
def demo_audio_stream : AVStream :=
  { time_base := { num := 1, den := 44100 }, avg_frame_rate := { num := 0, den := 0 } }

/-- A frame with the given timestamp. -/
def demo_frame (ts : Int) : AVFrame := { best_effort_timestamp := ts, nb_samples := 0, ident := 0 }

/-- A player on a file with one video and one audio stream, as `open()` and
`start()` leave it when `av_gettime()` reads 0: empty queues,
`frame_last_delay = 40e-3`. -/
def demo_player : VideoPlayer :=
  { video_stream := demo_video_stream
    audio_stream := some demo_audio_stream
    audio_codec_ctx := { sample_rate := 44100 }
    video_stream_index := 0
    audio_stream_index := 1
    video_q := PacketQueue.new
    audio_q := PacketQueue.new
    video_frame_q := FrameQueue.new
    audio_frame_q := FrameQueue.new
    quit := false
    audio_clock := 0
    frame_timer := 0
    frame_last_pts := 0
    frame_last_delay := 40 / 1000
    audio_buf_size := 0
    audio_buf_index := 0
    audio_buf := [] }

/-- The example player with one frame of timestamp `ts` waiting in the video
frame queue, the given audio clock and the given `frame_last_pts`. -/
def demo_player_with (ts : Int) (audio_clock frame_last_pts : ℚ) : VideoPlayer :=
  { demo_player with
    video_frame_q := { FrameQueue.new with queue := [some (demo_frame ts)] }
    audio_clock := audio_clock
    frame_last_pts := frame_last_pts }

/-- An iteration of `main_loop` that finds the end-of-stream sentinel at the
head of the video frame queue, no events, and the clock at 0. -/
def demo_tick_end : Tick :=
  { events := []
    video_frame_q := { FrameQueue.new with queue := [none] }
    audio_clock := 0
    audio_buf_size := 0
    audio_buf_index := 0
    clock_now := 0
    delay_now := 0 }

/-- The example player after `render_video_frame` has popped the sentinel. -/
def demo_player_ended : VideoPlayer :=
  { demo_player with video_frame_q := FrameQueue.new, quit := true }

/-- A resampler that turns every frame into 256 samples (1024 bytes) of
value 1. -/
def demo_swr : AVFrame → SwrResult :=
  fun _ => { converted_samples := 256, data := List.replicate 1024 1 }

/-- The example player with only the end-of-stream sentinel in the audio
frame queue. -/
def demo_player_audio_end : VideoPlayer :=
  { demo_player with audio_frame_q := { FrameQueue.new with queue := [none] } }

/-- An iteration of the demux loop that finds the four queues empty. -/
def demo_demux_step (quit : Bool) (read : Option AVPacket) : DemuxStep :=
  { quit := quit
    video_q := PacketQueue.new
    audio_q := PacketQueue.new
    video_frame_q := FrameQueue.new
    audio_frame_q := FrameQueue.new
    read := read }

/-- A run of the demux loop that reads a packet of stream 0, one of stream
1, one of stream 2, and then the end of the input. -/
def demo_demux_steps : List DemuxStep :=
  [demo_demux_step false (some { stream_index := 0, ident := 1 }),
   demo_demux_step false (some { stream_index := 1, ident := 2 }),
   demo_demux_step false (some { stream_index := 2, ident := 3 }),
   demo_demux_step false none]

/-- The example player on a file without audio stream. -/
def demo_player_no_audio : VideoPlayer :=
  { demo_player with audio_stream := none, audio_stream_index := -1 }

/-- The example player on a file without audio stream, with one frame of
timestamp `ts` waiting in the video frame queue. -/
def demo_player_no_audio_with (ts : Int) : VideoPlayer :=
  { demo_player_no_audio with
    video_frame_q := { FrameQueue.new with queue := [some (demo_frame ts)] } }

/-- The example player of the override example (`frame_last_pts = 10.0`, a
frame of `video_pts = 9.0` waiting, `audio_clock = 9.0`) on a video stream
whose `avg_frame_rate` is `25/0`. -/
def demo_player_inf_fps : VideoPlayer :=
  { demo_player_with 9000 9 10 with
    video_stream :=
      { time_base := { num := 1, den := 1000 }, avg_frame_rate := { num := 25, den := 0 } } }

/-! ## Lemmas on the queue methods -/

section QueueLemmas

variable {α : Type}

theorem size_t_of_int_eq (n : Int) (h0 : 0 ≤ n) (h1 : n < 2 ^ 64) :
    (size_t_of_int n : Int) = n := by
  unfold size_t_of_int
  rw [Int.emod_eq_of_lt h0 h1]
  exact Int.toNat_of_nonneg h0

theorem push_of_quit (q : TSQueue α) (pkt : Option α) (h : q.quit = true) :
    q.push pkt = some (q, pkt.toList) := by
  simp [TSQueue.push, h]

theorem push_of_room (q : TSQueue α) (pkt : Option α) (h : q.quit = false)
    (hlen : q.queue.length < size_t_of_int q.max_size) :
    q.push pkt = some ({ q with queue := q.queue ++ [pkt] }, []) := by
  simp [TSQueue.push, h, hlen]

theorem push_of_full (q : TSQueue α) (pkt : Option α) (h : q.quit = false)
    (hlen : ¬ q.queue.length < size_t_of_int q.max_size) :
    q.push pkt = none := by
  simp [TSQueue.push, h, hlen]

theorem pop_of_cons (q : TSQueue α) (pkt : Option α) (rest : List (Option α))
    (h : q.queue = pkt :: rest) :
    q.pop = some ({ q with queue := rest }, pkt) := by
  simp [TSQueue.pop, h]

theorem pop_of_nil_quit (q : TSQueue α) (h : q.queue = []) (hq : q.quit = true) :
    q.pop = some (q, none) := by
  simp [TSQueue.pop, h, hq]

theorem pop_of_nil_live (q : TSQueue α) (h : q.queue = []) (hq : q.quit = false) :
    q.pop = none := by
  simp [TSQueue.pop, h, hq]

theorem flush_loop_fst (l : List (Option α)) (freed : List α) :
    (TSQueue.flush_loop l freed).1 = [] := by
  induction l generalizing freed with
  | nil => rfl
  | cons x rest ih => simpa [TSQueue.flush_loop] using ih _

theorem exec_cons (q : TSQueue α) (op : QueueOp α) (ops : List (QueueOp α)) :
    exec q (op :: ops) =
      match step q op with
      | none => none
      | some (q1, out1) =>
        match exec q1 ops with
        | none => none
        | some (q2, out2) => some (q2, out1 ++ out2) := rfl

theorem exec_append (q : TSQueue α) (a b : List (QueueOp α)) :
    exec q (a ++ b) =
      match exec q a with
      | none => none
      | some (q1, out1) =>
        match exec q1 b with
        | none => none
        | some (q2, out2) => some (q2, out1 ++ out2) := by
  induction a generalizing q with
  | nil =>
    simp only [List.nil_append, exec]
    cases exec q b with
    | none => rfl
    | some r => simp
  | cons op ops ih =>
    rw [List.cons_append, exec_cons, exec_cons]
    cases step q op with
    | none => rfl
    | some r =>
      obtain ⟨q1, out1⟩ := r
      simp only [ih]
      cases exec q1 ops with
      | none => rfl
      | some r1 =>
        obtain ⟨q2, out2⟩ := r1
        simp only
        cases exec q2 b with
        | none => rfl
        | some r2 => simp [List.append_assoc]

theorem step_push_live (q q1 : TSQueue α) (item : Option α) (out : List (Option α))
    (hq : q.quit = false) (h : step q (QueueOp.push item) = some (q1, out)) :
    q.queue.length < size_t_of_int q.max_size ∧
      q1 = { q with queue := q.queue ++ [item] } ∧ out = [] := by
  by_cases hlen : q.queue.length < size_t_of_int q.max_size
  · simp [step, push_of_room q item hq hlen] at h
    exact ⟨hlen, h.1.symm, h.2⟩
  · simp [step, push_of_full q item hq hlen] at h

theorem step_pop_live (q q1 : TSQueue α) (out : List (Option α))
    (hq : q.quit = false) (h : step q QueueOp.pop = some (q1, out)) :
    ∃ pkt rest, q.queue = pkt :: rest ∧ q1 = { q with queue := rest } ∧ out = [pkt] := by
  cases hl : q.queue with
  | nil => simp [step, pop_of_nil_live q hl hq] at h
  | cons pkt rest =>
    simp [step, pop_of_cons q pkt rest hl] at h
    exact ⟨pkt, rest, rfl, h.1.symm, h.2.symm⟩

/-- First in, first out: on a queue that is not aborted, the values popped
followed by what is left in the queue are the initial contents followed by
the values pushed. -/
theorem fifo_of_exec (q0 : TSQueue α) (ops : List (QueueOp α)) (q1 : TSQueue α)
    (out : List (Option α)) (hq : q0.quit = false) (hops : push_pop_only ops = true)
    (h : exec q0 ops = some (q1, out)) :
    out ++ q1.queue = q0.queue ++ pushed ops ∧ q1.quit = false ∧ q1.max_size = q0.max_size := by
  induction ops generalizing q0 out with
  | nil =>
    simp [exec] at h
    obtain ⟨rfl, rfl⟩ := h
    simp [pushed, hq]
  | cons op ops ih =>
    rw [exec_cons] at h
    cases hs : step q0 op with
    | none => simp [hs] at h
    | some r =>
      obtain ⟨qa, outa⟩ := r
      simp only [hs] at h
      cases he : exec qa ops with
      | none => simp [he] at h
      | some r2 =>
        obtain ⟨qb, outb⟩ := r2
        simp only [he, Option.some.injEq, Prod.mk.injEq] at h
        obtain ⟨rfl, rfl⟩ := h
        cases op with
        | push item =>
          obtain ⟨_, rfl, rfl⟩ := step_push_live q0 qa item outa hq hs
          have hops1 : push_pop_only ops = true := by simpa [push_pop_only] using hops
          obtain ⟨h1, h2, h3⟩ := ih { q0 with queue := q0.queue ++ [item] } outb hq hops1 he
          refine ⟨?_, h2, h3⟩
          simp [pushed, h1]
        | pop =>
          obtain ⟨pkt, rest, hl, rfl, rfl⟩ := step_pop_live q0 qa outa hq hs
          have hops1 : push_pop_only ops = true := by simpa [push_pop_only] using hops
          obtain ⟨h1, h2, h3⟩ := ih { q0 with queue := rest } outb hq hops1 he
          refine ⟨?_, h2, h3⟩
          simp only [] at h1
          simp [pushed, hl, h1]
        | abort => simp [push_pop_only] at hops
        | flush => simp [push_pop_only] at hops

/-- The bound `len ≤ max_size` is kept by every completed call, and no call
changes `max_size`. -/
theorem bound_of_step (q q1 : TSQueue α) (op : QueueOp α) (out : List (Option α))
    (hinv : (q.queue.length : Int) ≤ q.max_size) (hmax : q.max_size < 2 ^ 31)
    (h : step q op = some (q1, out)) :
    (q1.queue.length : Int) ≤ q1.max_size ∧ q1.max_size = q.max_size := by
  have h0 : 0 ≤ q.max_size := le_trans (Int.ofNat_nonneg _) hinv
  have hsz : (size_t_of_int q.max_size : Int) = q.max_size :=
    size_t_of_int_eq _ h0 (lt_trans hmax (by norm_num))
  cases op with
  | push item =>
    cases hq : q.quit with
    | true =>
      simp [step, push_of_quit q item hq] at h
      obtain ⟨rfl, _⟩ := h
      exact ⟨hinv, rfl⟩
    | false =>
      obtain ⟨hlen, rfl, _⟩ := step_push_live q q1 item out hq h
      have hlen1 : (q.queue.length : Int) < (size_t_of_int q.max_size : Int) := by
        exact_mod_cast hlen
      rw [hsz] at hlen1
      refine ⟨?_, rfl⟩
      simp only [List.length_append, List.length_singleton]
      push_cast
      omega
  | pop =>
    cases hl : q.queue with
    | nil =>
      cases hq : q.quit with
      | true =>
        simp [step, pop_of_nil_quit q hl hq] at h
        obtain ⟨rfl, _⟩ := h
        exact ⟨hinv, rfl⟩
      | false => simp [step, pop_of_nil_live q hl hq] at h
    | cons pkt rest =>
      simp [step, pop_of_cons q pkt rest hl] at h
      obtain ⟨rfl, _⟩ := h
      refine ⟨?_, rfl⟩
      rw [hl] at hinv
      simp only [List.length_cons] at hinv
      push_cast at hinv
      simp only
      omega
  | abort =>
    simp [step, TSQueue.abort] at h
    obtain ⟨rfl, _⟩ := h
    exact ⟨hinv, rfl⟩
  | flush =>
    simp [step, TSQueue.flush, flush_loop_fst] at h
    obtain ⟨rfl, _⟩ := h
    exact ⟨by simpa using h0, rfl⟩

theorem bound_of_exec (q q1 : TSQueue α) (ops : List (QueueOp α)) (out : List (Option α))
    (hinv : (q.queue.length : Int) ≤ q.max_size) (hmax : q.max_size < 2 ^ 31)
    (h : exec q ops = some (q1, out)) :
    (q1.queue.length : Int) ≤ q1.max_size ∧ q1.max_size = q.max_size := by
  induction ops generalizing q out with
  | nil =>
    simp [exec] at h
    obtain ⟨rfl, _⟩ := h
    exact ⟨hinv, rfl⟩
  | cons op ops ih =>
    rw [exec_cons] at h
    cases hs : step q op with
    | none => simp [hs] at h
    | some r =>
      obtain ⟨qa, outa⟩ := r
      simp only [hs] at h
      cases he : exec qa ops with
      | none => simp [he] at h
      | some r2 =>
        obtain ⟨qb, outb⟩ := r2
        simp only [he, Option.some.injEq, Prod.mk.injEq] at h
        obtain ⟨rfl, _⟩ := h
        obtain ⟨ha, hb⟩ := bound_of_step q qa op outa hinv hmax hs
        obtain ⟨hc, hd⟩ := ih qa outb ha (by rw [hb]; exact hmax) he
        exact ⟨hc, by rw [hd, hb]⟩

/-- Pops on an aborted queue: the items in order, then `nullptr` for ever. -/
theorem exec_pops_aborted (l : List (Option α)) (m : Int) (k : Nat) :
    exec { queue := l, max_size := m, quit := true }
        (List.replicate (l.length + k) QueueOp.pop) =
      some ({ queue := [], max_size := m, quit := true }, l ++ List.replicate k none) := by
  induction l with
  | nil =>
    induction k with
    | zero => rfl
    | succ k ih =>
      simp only [List.length_nil, Nat.zero_add] at ih ⊢
      rw [List.replicate_succ, exec_cons]
      simp [step, pop_of_nil_quit, ih, List.replicate_succ]
  | cons pkt rest ih =>
    rw [List.length_cons, Nat.add_right_comm, List.replicate_succ, exec_cons]
    simp [step, TSQueue.pop, ih]

/-- Pushes on a live queue with enough room all enqueue. -/
theorem exec_pushes_live (items l : List (Option α)) (m : Int)
    (hroom : l.length + items.length ≤ size_t_of_int m) :
    exec { queue := l, max_size := m, quit := false } (items.map QueueOp.push) =
      some ({ queue := l ++ items, max_size := m, quit := false }, []) := by
  induction items generalizing l with
  | nil => simp [exec]
  | cons item items ih =>
    rw [List.map_cons, exec_cons]
    have hlen : l.length < size_t_of_int m := by
      simp only [List.length_cons] at hroom
      omega
    have hroom1 : (l ++ [item]).length + items.length ≤ size_t_of_int m := by
      simp only [List.length_cons, List.length_append, List.length_singleton,
        List.length_nil] at hroom ⊢
      omega
    simp [step, TSQueue.push, hlen, ih _ hroom1]

/-- As many pops as there are items, on a live queue: the items in order. -/
theorem exec_pops_live (l : List (Option α)) (m : Int) :
    exec { queue := l, max_size := m, quit := false } (List.replicate l.length QueueOp.pop) =
      some ({ queue := [], max_size := m, quit := false }, l) := by
  induction l with
  | nil => rfl
  | cons pkt rest ih =>
    rw [List.length_cons, List.replicate_succ, exec_cons]
    simp [step, TSQueue.pop, ih]

end QueueLemmas

/-! ## Lemmas on `render_video_frame` and `get_audio_clock` -/

section PlayerLemmas

open VideoPlayer

theorem int_wrap_eq (z : Int) (h0 : -(2 ^ 31) ≤ z) (h1 : z < 2 ^ 31) : int_wrap z = z := by
  unfold int_wrap
  rw [Int.emod_eq_of_lt (by omega) (by omega)]
  omega

theorem int_of_unsigned_sub (a b : Nat) (h0 : -(2 ^ 31) ≤ (a : Int) - b)
    (h1 : (a : Int) - b < 2 ^ 31) : int_of_unsigned (unsigned_sub a b) = (a : Int) - b := by
  unfold int_of_unsigned unsigned_sub int_wrap
  rw [Int.toNat_of_nonneg (Int.emod_nonneg _ (by norm_num))]
  omega

theorem render_of_pop (s : VideoPlayer) (q : FrameQueue) (frame : AVFrame)
    (clock_now delay_now : Int) (hpop : s.video_frame_q.pop = some (q, some frame)) :
    s.render_video_frame clock_now delay_now =
      some (render_frame { s with video_frame_q := q } frame clock_now delay_now) := by
  simp [render_video_frame, hpop]

theorem render_frame_drop (s : VideoPlayer) (frame : AVFrame) (clock_now delay_now : Int)
    (hdiff : diff_of s frame clock_now < -1) :
    render_frame s frame clock_now delay_now =
      ({ s with frame_last_delay := frame_delay_of s (video_pts_of s frame),
                frame_last_pts := video_pts_of s frame },
       [Event.log_drop (diff_of s frame clock_now), Event.av_frame_free frame]) := by
  have h : video_pts_of s frame - get_audio_clock s clock_now < -AV_NOSYNC_THRESHOLD := by
    simpa [diff_of, AV_NOSYNC_THRESHOLD] using hdiff
  unfold render_frame
  simp only [diff_of]
  rw [if_pos (by simpa [get_audio_clock] using h)]
  simp [get_audio_clock]

theorem render_frame_present (s : VideoPlayer) (frame : AVFrame) (clock_now delay_now : Int)
    (hdiff : -1 ≤ diff_of s frame clock_now) :
    render_frame s frame clock_now delay_now =
      ({ s with frame_last_delay := frame_delay_of s (video_pts_of s frame),
                frame_last_pts := video_pts_of s frame,
                frame_timer := s.frame_timer +
                  sync_delay_of (frame_delay_of s (video_pts_of s frame))
                    (diff_of s frame clock_now) },
       [Event.SDL_Delay (Uint32_of_double
          (actual_delay_of (s.frame_timer +
              sync_delay_of (frame_delay_of s (video_pts_of s frame))
                (diff_of s frame clock_now)) delay_now * 1000 + 1 / 2)),
        Event.display_frame frame, Event.av_frame_free frame]) := by
  have h : ¬ video_pts_of s frame - get_audio_clock s clock_now < -AV_NOSYNC_THRESHOLD := by
    simpa [diff_of, AV_NOSYNC_THRESHOLD] using hdiff
  unfold render_frame
  simp only [diff_of]
  rw [if_neg (by simpa [get_audio_clock] using h)]
  simp [get_audio_clock]

theorem render_frame_last (s : VideoPlayer) (frame : AVFrame) (clock_now delay_now : Int) :
    (render_frame s frame clock_now delay_now).1.frame_last_delay =
        frame_delay_of s (video_pts_of s frame) ∧
      (render_frame s frame clock_now delay_now).1.frame_last_pts = video_pts_of s frame := by
  by_cases hdiff : diff_of s frame clock_now < -1
  · rw [render_frame_drop s frame clock_now delay_now hdiff]
    exact ⟨rfl, rfl⟩
  · rw [render_frame_present s frame clock_now delay_now (not_lt.mp hdiff)]
    exact ⟨rfl, rfl⟩

theorem sync_delay_of_eq_max (frame_delay diff : ℚ) :
    sync_delay_of frame_delay diff = max (frame_delay + diff) (1 / 100) := by
  unfold sync_delay_of AV_SYNC_THRESHOLD
  by_cases h : frame_delay + diff < 1 / 100
  · simp only [h, if_true]
    exact (max_eq_right (le_of_lt h)).symm
  · simp only [h, if_false]
    exact (max_eq_left (not_lt.mp h)).symm

/-- With a zero denominator the quotient over `ℚ` is `0`. -/
theorem av_q2d_of_den_zero (a : AVRational) (h : a.den = 0) : av_q2d a = 0 := by
  unfold av_q2d
  rw [h, Int.cast_zero, div_zero]

/-- With a non-zero denominator `av_q2d` is finite and is the quotient. -/
theorem av_q2d_ieee_finite (a : AVRational) (h : a.den ≠ 0) :
    av_q2d_ieee a = Double.finite (av_q2d a) := by
  unfold av_q2d_ieee
  rw [if_neg h]

/-- With a zero denominator and a positive numerator `av_q2d` is `+inf`. -/
theorem av_q2d_ieee_pos_inf (a : AVRational) (h : a.den = 0) (hn : 0 < a.num) :
    av_q2d_ieee a = Double.pos_inf := by
  unfold av_q2d_ieee
  rw [if_pos h, if_pos hn]

/-- With a zero denominator and a numerator that is not positive `av_q2d` is
`-inf` or NaN. -/
theorem av_q2d_ieee_not_pos (a : AVRational) (h : a.den = 0) (hn : a.num ≤ 0) :
    av_q2d_ieee a = Double.neg_inf ∨ av_q2d_ieee a = Double.nan := by
  unfold av_q2d_ieee
  rw [if_pos h, if_neg (not_lt.mpr hn)]
  by_cases h0 : a.num < 0
  · rw [if_pos h0]
    exact Or.inl rfl
  · rw [if_neg h0]
    exact Or.inr rfl

/-- The frame delay when the difference lies in `(0, 1.0]`. -/
theorem frame_delay_of_keep (s : VideoPlayer) (video_pts : ℚ)
    (h : 0 < video_pts - s.frame_last_pts ∧ video_pts - s.frame_last_pts ≤ 1) :
    frame_delay_of s video_pts = video_pts - s.frame_last_pts := by
  unfold frame_delay_of
  simp only
  rw [if_neg]
  rintro (h0 | h1)
  · exact absurd h.1 (not_lt.mpr h0)
  · exact absurd h.2 (not_le.mpr h1)

/-- The frame delay when the difference does not lie in `(0, 1.0]`: the
override. -/
theorem frame_delay_of_override (s : VideoPlayer) (video_pts : ℚ)
    (h : ¬ (0 < video_pts - s.frame_last_pts ∧ video_pts - s.frame_last_pts ≤ 1)) :
    frame_delay_of s video_pts =
      match av_q2d_ieee s.video_stream.avg_frame_rate with
      | Double.finite fps => if fps > 0 then 1 / fps else 40 / 1000
      | Double.pos_inf => 0
      | Double.neg_inf => 40 / 1000
      | Double.nan => 40 / 1000 := by
  have hc : video_pts - s.frame_last_pts ≤ 0 ∨ video_pts - s.frame_last_pts > 1 := by
    by_contra hn
    push_neg at hn
    exact h ⟨hn.1, hn.2⟩
  unfold frame_delay_of
  simp only
  rw [if_pos hc]

/-- The override with a finite `fps`. -/
theorem frame_delay_of_override_finite (s : VideoPlayer) (video_pts : ℚ)
    (h : ¬ (0 < video_pts - s.frame_last_pts ∧ video_pts - s.frame_last_pts ≤ 1))
    (hden : s.video_stream.avg_frame_rate.den ≠ 0) :
    frame_delay_of s video_pts =
      if av_q2d s.video_stream.avg_frame_rate > 0 then
        1 / av_q2d s.video_stream.avg_frame_rate
      else 40 / 1000 := by
  rw [frame_delay_of_override s video_pts h, av_q2d_ieee_finite _ hden]

/-- The override with `fps = +inf`: `fps > 0` holds and `1.0 / fps` is `0`. -/
theorem frame_delay_of_override_pos_inf (s : VideoPlayer) (video_pts : ℚ)
    (h : ¬ (0 < video_pts - s.frame_last_pts ∧ video_pts - s.frame_last_pts ≤ 1))
    (hden : s.video_stream.avg_frame_rate.den = 0)
    (hnum : 0 < s.video_stream.avg_frame_rate.num) :
    frame_delay_of s video_pts = 0 := by
  rw [frame_delay_of_override s video_pts h, av_q2d_ieee_pos_inf _ hden hnum]

/-- The override with `fps = -inf` or NaN: `fps > 0` fails. -/
theorem frame_delay_of_override_not_pos (s : VideoPlayer) (video_pts : ℚ)
    (h : ¬ (0 < video_pts - s.frame_last_pts ∧ video_pts - s.frame_last_pts ≤ 1))
    (hden : s.video_stream.avg_frame_rate.den = 0)
    (hnum : s.video_stream.avg_frame_rate.num ≤ 0) :
    frame_delay_of s video_pts = 40 / 1000 := by
  rw [frame_delay_of_override s video_pts h]
  rcases av_q2d_ieee_not_pos _ hden hnum with h1 | h1 <;> rw [h1]

/-- The values of the frame delay examples: `frame_last_pts = 10.0` with
`video_pts = 10.5` gives 0.5; with `video_pts = 9.0` at 25 fps it gives 0.04;
with `video_pts = 9.0` and the frame rate 0/0 it gives 0.040. -/
theorem frame_delay_of_examples :
    frame_delay_of (demo_player_with 10500 10 10) (21 / 2) = 1 / 2 ∧
      frame_delay_of (demo_player_with 9000 10 10) 9 = 4 / 100 ∧
      frame_delay_of { demo_player_with 9000 10 10 with video_stream := demo_audio_stream } 9 =
        4 / 100 := by
  refine ⟨?_, ?_, ?_⟩
  · rw [frame_delay_of_keep _ _ (by norm_num [demo_player_with, demo_player])]
    norm_num [demo_player_with, demo_player]
  · rw [frame_delay_of_override_finite _ _ (by norm_num [demo_player_with, demo_player])
      (by decide)]
    norm_num [demo_player_with, demo_player, demo_video_stream, av_q2d]
  · rw [frame_delay_of_override_not_pos _ _ (by norm_num [demo_player_with, demo_player])
      (by decide) (by decide)]
    norm_num

/-- The value of the soft floor example: `frame_delay = 0.02` and
`diff = -0.03` give 0.01. -/
theorem sync_delay_of_example : sync_delay_of (2 / 100) (-(3 / 100)) = 1 / 100 := by
  norm_num [sync_delay_of, AV_SYNC_THRESHOLD]

/-- The value of the audio clock example: `audio_clock = 2.000`, 176400 bytes
per second and 17640 unplayed bytes give 1.900. -/
theorem get_audio_clock_example :
    get_audio_clock { demo_player with audio_clock := 2, audio_buf_size := 17640 } 0 =
      19 / 10 := by
  norm_num [get_audio_clock, demo_player, int_of_unsigned, unsigned_sub, int_wrap,
    av_get_bytes_per_sample_S16]

end PlayerLemmas

/-! ## The pacing claims -/

section PacingClaims

open VideoPlayer

/-- C1: in `render_video_frame`, when a frame was popped and
`diff = video_pts - audio_pts` is below `-1.0`, the call completes with the
frame dropped: its only effects are the log line and the release of the frame
(no sleep, no `display_frame`), and `frame_timer` is what it was before. -/
theorem C1_drop_when_far_behind (s : VideoPlayer) (q : FrameQueue) (frame : AVFrame)
    (clock_now delay_now : Int)
    (hpop : s.video_frame_q.pop = some (q, some frame))
    (hdiff : diff_of s frame clock_now < -1) :
    ∃ s1 events, s.render_video_frame clock_now delay_now = some (s1, events) ∧
      events = [Event.log_drop (diff_of s frame clock_now), Event.av_frame_free frame] ∧
      (∀ e ∈ events, e.is_sleep = false ∧ e.is_display = false) ∧
      s1.frame_timer = s.frame_timer := by
  have hd : diff_of { s with video_frame_q := q } frame clock_now < -1 := hdiff
  have hr := render_frame_drop { s with video_frame_q := q } frame clock_now delay_now hd
  refine ⟨_, _, (render_of_pop s q frame clock_now delay_now hpop).trans (congrArg some hr),
    rfl, ?_, rfl⟩
  intro e he
  simp only [List.mem_cons, List.mem_singleton, List.not_mem_nil, or_false] at he
  rcases he with rfl | rfl <;> exact ⟨rfl, rfl⟩

/-- A witness of C1: `video_pts = 5.0` (timestamp 5000 at time base 1/1000) and
`audio_pts = 6.5`. -/
theorem C1_drop_when_far_behind_witness :
    (demo_player_with 5000 (13 / 2) (124 / 25)).video_frame_q.pop =
        some (FrameQueue.new, some (demo_frame 5000)) ∧
      diff_of (demo_player_with 5000 (13 / 2) (124 / 25)) (demo_frame 5000) 0 < -1 ∧
      ∃ s1 events, (demo_player_with 5000 (13 / 2) (124 / 25)).render_video_frame 0 0 =
          some (s1, events) ∧
        events = [Event.log_drop
            (diff_of (demo_player_with 5000 (13 / 2) (124 / 25)) (demo_frame 5000) 0),
          Event.av_frame_free (demo_frame 5000)] ∧
        (∀ e ∈ events, e.is_sleep = false ∧ e.is_display = false) ∧
        s1.frame_timer = (demo_player_with 5000 (13 / 2) (124 / 25)).frame_timer :=
  ⟨rfl, by norm_num [diff_of, video_pts_of, get_audio_clock, demo_player_with, demo_player,
      demo_frame, demo_video_stream, av_q2d, AV_NOPTS_VALUE, int_of_unsigned, unsigned_sub,
      int_wrap, av_get_bytes_per_sample_S16],
    C1_drop_when_far_behind (demo_player_with 5000 (13 / 2) (124 / 25)) FrameQueue.new
      (demo_frame 5000) 0 0 rfl
      (by norm_num [diff_of, video_pts_of, get_audio_clock, demo_player_with, demo_player,
        demo_frame, demo_video_stream, av_q2d, AV_NOPTS_VALUE, int_of_unsigned, unsigned_sub,
        int_wrap, av_get_bytes_per_sample_S16])⟩

/-- C2: the `frame_delay` that `render_video_frame` uses. For every
`video_pts`, it is `video_pts - frame_last_pts` when that difference lies in
`(0, 1.0]`; otherwise it is `1 / fps` when `fps = av_q2d(avg_frame_rate) > 0`
and `0.040` when it is not. For a frame rate `n/0` the `fps` is not finite:
with `n > 0` it is `+inf`, which is `> 0`, and `1 / fps` is `0`; with `n ≤ 0`
it is `-inf` or NaN, which is not `> 0`. The call stores that value, computed
at the `video_pts` of the popped frame, in `frame_last_delay`. -/
theorem C2_frame_delay (s : VideoPlayer) (q : FrameQueue) (frame : AVFrame)
    (clock_now delay_now : Int) (video_pts : ℚ)
    (hpop : s.video_frame_q.pop = some (q, some frame)) :
    ((0 < video_pts - s.frame_last_pts ∧ video_pts - s.frame_last_pts ≤ 1 →
        frame_delay_of s video_pts = video_pts - s.frame_last_pts) ∧
      (¬ (0 < video_pts - s.frame_last_pts ∧ video_pts - s.frame_last_pts ≤ 1) →
        0 < av_q2d s.video_stream.avg_frame_rate →
        frame_delay_of s video_pts = 1 / av_q2d s.video_stream.avg_frame_rate) ∧
      (¬ (0 < video_pts - s.frame_last_pts ∧ video_pts - s.frame_last_pts ≤ 1) →
        av_q2d s.video_stream.avg_frame_rate ≤ 0 →
        (s.video_stream.avg_frame_rate.den = 0 → s.video_stream.avg_frame_rate.num ≤ 0) →
        frame_delay_of s video_pts = 40 / 1000) ∧
      (¬ (0 < video_pts - s.frame_last_pts ∧ video_pts - s.frame_last_pts ≤ 1) →
        s.video_stream.avg_frame_rate.den = 0 → 0 < s.video_stream.avg_frame_rate.num →
        av_q2d_ieee s.video_stream.avg_frame_rate = Double.pos_inf ∧
          frame_delay_of s video_pts = 0)) ∧
    ∃ s1 events, s.render_video_frame clock_now delay_now = some (s1, events) ∧
      s1.frame_last_delay = frame_delay_of s (video_pts_of s frame) := by
  refine ⟨⟨frame_delay_of_keep s video_pts, ?_, ?_, ?_⟩, ?_⟩
  · intro hout hfps
    have hden : s.video_stream.avg_frame_rate.den ≠ 0 := by
      intro h0
      rw [av_q2d_of_den_zero _ h0] at hfps
      exact lt_irrefl _ hfps
    rw [frame_delay_of_override_finite s video_pts hout hden, if_pos hfps]
  · intro hout hfps hnum
    by_cases hden : s.video_stream.avg_frame_rate.den = 0
    · exact frame_delay_of_override_not_pos s video_pts hout hden (hnum hden)
    · rw [frame_delay_of_override_finite s video_pts hout hden, if_neg (not_lt.mpr hfps)]
  · intro hout hden hnum
    exact ⟨av_q2d_ieee_pos_inf _ hden hnum,
      frame_delay_of_override_pos_inf s video_pts hout hden hnum⟩
  · exact ⟨_, _, render_of_pop s q frame clock_now delay_now hpop,
      (render_frame_last { s with video_frame_q := q } frame clock_now delay_now).1⟩

/-- A witness of C2: `frame_last_pts = 10.0` and `video_pts = 10.5`
(timestamp 10500 at time base 1/1000). -/
theorem C2_frame_delay_witness :
    (demo_player_with 10500 10 10).video_frame_q.pop =
        some (FrameQueue.new, some (demo_frame 10500)) ∧
      (((0 < (21 / 2 : ℚ) - (demo_player_with 10500 10 10).frame_last_pts ∧
            (21 / 2 : ℚ) - (demo_player_with 10500 10 10).frame_last_pts ≤ 1 →
          frame_delay_of (demo_player_with 10500 10 10) (21 / 2) =
            21 / 2 - (demo_player_with 10500 10 10).frame_last_pts) ∧
        (¬ (0 < (21 / 2 : ℚ) - (demo_player_with 10500 10 10).frame_last_pts ∧
            (21 / 2 : ℚ) - (demo_player_with 10500 10 10).frame_last_pts ≤ 1) →
          0 < av_q2d (demo_player_with 10500 10 10).video_stream.avg_frame_rate →
          frame_delay_of (demo_player_with 10500 10 10) (21 / 2) =
            1 / av_q2d (demo_player_with 10500 10 10).video_stream.avg_frame_rate) ∧
        (¬ (0 < (21 / 2 : ℚ) - (demo_player_with 10500 10 10).frame_last_pts ∧
            (21 / 2 : ℚ) - (demo_player_with 10500 10 10).frame_last_pts ≤ 1) →
          av_q2d (demo_player_with 10500 10 10).video_stream.avg_frame_rate ≤ 0 →
          ((demo_player_with 10500 10 10).video_stream.avg_frame_rate.den = 0 →
            (demo_player_with 10500 10 10).video_stream.avg_frame_rate.num ≤ 0) →
          frame_delay_of (demo_player_with 10500 10 10) (21 / 2) = 40 / 1000) ∧
        (¬ (0 < (21 / 2 : ℚ) - (demo_player_with 10500 10 10).frame_last_pts ∧
            (21 / 2 : ℚ) - (demo_player_with 10500 10 10).frame_last_pts ≤ 1) →
          (demo_player_with 10500 10 10).video_stream.avg_frame_rate.den = 0 →
          0 < (demo_player_with 10500 10 10).video_stream.avg_frame_rate.num →
          av_q2d_ieee (demo_player_with 10500 10 10).video_stream.avg_frame_rate =
              Double.pos_inf ∧
            frame_delay_of (demo_player_with 10500 10 10) (21 / 2) = 0)) ∧
      ∃ s1 events, (demo_player_with 10500 10 10).render_video_frame 0 0 = some (s1, events) ∧
        s1.frame_last_delay =
          frame_delay_of (demo_player_with 10500 10 10)
            (video_pts_of (demo_player_with 10500 10 10) (demo_frame 10500))) :=
  ⟨rfl, C2_frame_delay (demo_player_with 10500 10 10) FrameQueue.new (demo_frame 10500) 0 0
    (21 / 2) rfl⟩

/-- C3: in `render_video_frame`, when a frame was popped and
`diff = video_pts - audio_pts` is at least `-1.0`, `frame_timer` grows by
`max(frame_delay + diff, 0.01)`, which is positive. -/
theorem C3_sync_delay_floor (s : VideoPlayer) (q : FrameQueue) (frame : AVFrame)
    (clock_now delay_now : Int)
    (hpop : s.video_frame_q.pop = some (q, some frame))
    (hdiff : -1 ≤ diff_of s frame clock_now) :
    ∃ s1 events, s.render_video_frame clock_now delay_now = some (s1, events) ∧
      s1.frame_timer = s.frame_timer +
        max (frame_delay_of s (video_pts_of s frame) + diff_of s frame clock_now) (1 / 100) ∧
      0 < s1.frame_timer - s.frame_timer := by
  have hd : -1 ≤ diff_of { s with video_frame_q := q } frame clock_now := hdiff
  have hr := render_frame_present { s with video_frame_q := q } frame clock_now delay_now hd
  have hmax := sync_delay_of_eq_max (frame_delay_of s (video_pts_of s frame))
    (diff_of s frame clock_now)
  refine ⟨_, _, (render_of_pop s q frame clock_now delay_now hpop).trans (congrArg some hr),
    ?_, ?_⟩
  · show s.frame_timer + sync_delay_of _ _ = _
    rw [← hmax]
    rfl
  · show 0 < s.frame_timer + sync_delay_of (frame_delay_of s (video_pts_of s frame))
      (diff_of s frame clock_now) - s.frame_timer
    rw [hmax]
    have : (0 : ℚ) < max (frame_delay_of s (video_pts_of s frame) + diff_of s frame clock_now)
        (1 / 100) := lt_max_of_lt_right (by norm_num)
    linarith

/-- A witness of C3: `frame_last_pts = 1.00`, `video_pts = 1.02` and
`audio_pts = 1.05`, so `frame_delay = 0.02` and `diff = -0.03`. -/
theorem C3_sync_delay_floor_witness :
    (demo_player_with 1020 (105 / 100) 1).video_frame_q.pop =
        some (FrameQueue.new, some (demo_frame 1020)) ∧
      -1 ≤ diff_of (demo_player_with 1020 (105 / 100) 1) (demo_frame 1020) 0 ∧
      ∃ s1 events, (demo_player_with 1020 (105 / 100) 1).render_video_frame 0 0 =
          some (s1, events) ∧
        s1.frame_timer = (demo_player_with 1020 (105 / 100) 1).frame_timer +
          max (frame_delay_of (demo_player_with 1020 (105 / 100) 1)
                (video_pts_of (demo_player_with 1020 (105 / 100) 1) (demo_frame 1020)) +
              diff_of (demo_player_with 1020 (105 / 100) 1) (demo_frame 1020) 0) (1 / 100) ∧
        0 < s1.frame_timer - (demo_player_with 1020 (105 / 100) 1).frame_timer :=
  ⟨rfl, by norm_num [diff_of, video_pts_of, get_audio_clock, demo_player_with, demo_player,
      demo_frame, demo_video_stream, av_q2d, AV_NOPTS_VALUE, int_of_unsigned, unsigned_sub,
      int_wrap, av_get_bytes_per_sample_S16],
    C3_sync_delay_floor (demo_player_with 1020 (105 / 100) 1) FrameQueue.new
      (demo_frame 1020) 0 0 rfl
      (by norm_num [diff_of, video_pts_of, get_audio_clock, demo_player_with, demo_player,
        demo_frame, demo_video_stream, av_q2d, AV_NOPTS_VALUE, int_of_unsigned, unsigned_sub,
        int_wrap, av_get_bytes_per_sample_S16])⟩

/-- C4: with an audio stream selected (`audio_stream_index != -1`,
`audio_stream` not null), a positive `sample_rate` whose product
`sample_rate * 2 * 2` fits an `int`, and a byte count
`audio_buf_size - audio_buf_index` that fits an `int`, `get_audio_clock`
returns `audio_clock - (audio_buf_size - audio_buf_index) / bytes_per_sec`
where `bytes_per_sec = sample_rate * 2 * 2`. -/
theorem C4_audio_clock (s : VideoPlayer) (now : Int) (stream : AVStream)
    (hidx : s.audio_stream_index ≠ -1) (hstream : s.audio_stream = some stream)
    (hrate : 0 < s.audio_codec_ctx.sample_rate)
    (hfit : s.audio_codec_ctx.sample_rate * 2 * 2 < 2 ^ 31)
    (hlo : -(2 ^ 31) ≤ (s.audio_buf_size : Int) - s.audio_buf_index)
    (hhi : (s.audio_buf_size : Int) - s.audio_buf_index < 2 ^ 31) :
    s.get_audio_clock now =
      s.audio_clock - ((s.audio_buf_size : ℚ) - (s.audio_buf_index : ℚ)) /
        ((s.audio_codec_ctx.sample_rate : ℚ) * 2 * 2) := by
  have h1 : int_wrap (s.audio_codec_ctx.sample_rate * 2) = s.audio_codec_ctx.sample_rate * 2 :=
    int_wrap_eq _ (by omega) (by omega)
  have h2 : int_wrap (s.audio_codec_ctx.sample_rate * 2 * 2) =
      s.audio_codec_ctx.sample_rate * 2 * 2 := int_wrap_eq _ (by omega) hfit
  have hpos : 0 < s.audio_codec_ctx.sample_rate * 2 * 2 := by omega
  unfold get_audio_clock
  rw [if_neg hidx]
  simp only [hstream, av_get_bytes_per_sample_S16, h1, h2, gt_iff_lt, hpos, if_true,
    int_of_unsigned_sub _ _ hlo hhi]
  push_cast
  rfl

/-- A witness of C4: `audio_clock = 2.000`, `sample_rate = 44100` (so
`bytes_per_sec = 176400`) and 17640 unplayed bytes. -/
theorem C4_audio_clock_witness :
    get_audio_clock { demo_player with audio_clock := 2, audio_buf_size := 17640 } 0 =
      (2 : ℚ) - (((17640 : Nat) : ℚ) - ((0 : Nat) : ℚ)) / (((44100 : Int) : ℚ) * 2 * 2) :=
  C4_audio_clock { demo_player with audio_clock := 2, audio_buf_size := 17640 } 0
    demo_audio_stream (by decide) rfl (by decide) (by decide) (by decide) (by decide)

/-- C7, as stated, fails: a frame with the known timestamp 0, popped in the
state that `start()` leaves (`frame_last_pts = 0`, `frame_last_delay = 0.040`),
gets `video_pts = 0.040`, not `0 * time_base = 0`. -/
theorem C7_known_timestamp_zero_counterexample :
    (demo_frame 0).best_effort_timestamp ≠ AV_NOPTS_VALUE ∧
      (demo_player_with 0 0 0).video_frame_q.pop = some (FrameQueue.new, some (demo_frame 0)) ∧
      video_pts_of (demo_player_with 0 0 0) (demo_frame 0) = 40 / 1000 ∧
      ((demo_frame 0).best_effort_timestamp : ℚ) *
          av_q2d (demo_player_with 0 0 0).video_stream.time_base = 0 ∧
      video_pts_of (demo_player_with 0 0 0) (demo_frame 0) ≠
        ((demo_frame 0).best_effort_timestamp : ℚ) *
          av_q2d (demo_player_with 0 0 0).video_stream.time_base ∧
      ∃ s1 events, (demo_player_with 0 0 0).render_video_frame 0 0 = some (s1, events) ∧
        s1.frame_last_pts = 40 / 1000 := by
  have hv : video_pts_of (demo_player_with 0 0 0) (demo_frame 0) = 40 / 1000 := by
    norm_num [video_pts_of, demo_player_with, demo_player, demo_frame, demo_video_stream,
      av_q2d, AV_NOPTS_VALUE]
  refine ⟨by decide, rfl, hv, ?_, ?_, ?_⟩
  · norm_num [demo_frame]
  · rw [hv]
    norm_num [demo_frame]
  · have hl := (render_frame_last
      { demo_player_with 0 0 0 with video_frame_q := FrameQueue.new } (demo_frame 0) 0 0).2
    exact ⟨_, _, render_of_pop _ FrameQueue.new (demo_frame 0) 0 0 rfl, hl.trans hv⟩

/-- C7, amended: for a popped frame whose timestamp is known, `video_pts` is
the timestamp multiplied by the time base when that product is not zero; when
the product is zero, `video_pts` is `frame_last_pts + frame_last_delay`, as
for an unknown timestamp. The call stores that `video_pts` in
`frame_last_pts` and computes `frame_last_delay` from it. -/
theorem C7_video_pts_of_known_timestamp (s : VideoPlayer) (q : FrameQueue) (frame : AVFrame)
    (clock_now delay_now : Int)
    (hpop : s.video_frame_q.pop = some (q, some frame))
    (hknown : frame.best_effort_timestamp ≠ AV_NOPTS_VALUE) :
    ((frame.best_effort_timestamp : ℚ) * av_q2d s.video_stream.time_base ≠ 0 →
        video_pts_of s frame =
          (frame.best_effort_timestamp : ℚ) * av_q2d s.video_stream.time_base) ∧
      ((frame.best_effort_timestamp : ℚ) * av_q2d s.video_stream.time_base = 0 →
        video_pts_of s frame = s.frame_last_pts + s.frame_last_delay) ∧
      ∃ s1 events, s.render_video_frame clock_now delay_now = some (s1, events) ∧
        s1.frame_last_pts = video_pts_of s frame ∧
        s1.frame_last_delay = frame_delay_of s (video_pts_of s frame) := by
  refine ⟨?_, ?_, ?_⟩
  · intro hnz
    unfold video_pts_of
    simp only [hknown, if_false]
    rw [if_neg hnz]
  · intro hz
    unfold video_pts_of
    simp only [hknown, if_false]
    rw [if_pos hz]
  · exact ⟨_, _, render_of_pop s q frame clock_now delay_now hpop,
      (render_frame_last { s with video_frame_q := q } frame clock_now delay_now).2,
      (render_frame_last { s with video_frame_q := q } frame clock_now delay_now).1⟩

/-- A witness of the amended C7: timestamp 5000 at time base 1/1000. -/
theorem C7_video_pts_of_known_timestamp_witness :
    (demo_player_with 5000 5 (124 / 25)).video_frame_q.pop =
        some (FrameQueue.new, some (demo_frame 5000)) ∧
      (demo_frame 5000).best_effort_timestamp ≠ AV_NOPTS_VALUE ∧
      (((demo_frame 5000).best_effort_timestamp : ℚ) *
            av_q2d (demo_player_with 5000 5 (124 / 25)).video_stream.time_base ≠ 0 →
          video_pts_of (demo_player_with 5000 5 (124 / 25)) (demo_frame 5000) =
            ((demo_frame 5000).best_effort_timestamp : ℚ) *
              av_q2d (demo_player_with 5000 5 (124 / 25)).video_stream.time_base) ∧
      (((demo_frame 5000).best_effort_timestamp : ℚ) *
            av_q2d (demo_player_with 5000 5 (124 / 25)).video_stream.time_base = 0 →
          video_pts_of (demo_player_with 5000 5 (124 / 25)) (demo_frame 5000) =
            (demo_player_with 5000 5 (124 / 25)).frame_last_pts +
              (demo_player_with 5000 5 (124 / 25)).frame_last_delay) ∧
      ∃ s1 events, (demo_player_with 5000 5 (124 / 25)).render_video_frame 0 0 =
          some (s1, events) ∧
        s1.frame_last_pts = video_pts_of (demo_player_with 5000 5 (124 / 25)) (demo_frame 5000) ∧
        s1.frame_last_delay = frame_delay_of (demo_player_with 5000 5 (124 / 25))
          (video_pts_of (demo_player_with 5000 5 (124 / 25)) (demo_frame 5000)) :=
  ⟨rfl, by decide,
    C7_video_pts_of_known_timestamp (demo_player_with 5000 5 (124 / 25)) FrameQueue.new
      (demo_frame 5000) 0 0 rfl (by decide)⟩

end PacingClaims

/-! ## The queue claims -/

section QueueClaims

variable {α : Type}

/-- C6: `len ≤ max_size` is kept by every completed `push`, `pop`, `abort`
and `flush` (for an `int` `max_size`, which no call changes), because `push`
enqueues only when `length < max_size`. So, from a default-constructed empty
queue, after any sequence of completed calls the length is at most 300 for a
`PacketQueue` and at most 30 for a `FrameQueue`. -/
theorem C6_length_bounded :
    (∀ (q q1 : TSQueue α) (op : QueueOp α) (out : List (Option α)),
        (q.queue.length : Int) ≤ q.max_size → q.max_size < 2 ^ 31 →
        step q op = some (q1, out) →
        (q1.queue.length : Int) ≤ q1.max_size ∧ q1.max_size = q.max_size) ∧
      (∀ (ops : List (QueueOp AVPacket)) (q1 : PacketQueue) (out : List (Option AVPacket)),
        exec PacketQueue.new ops = some (q1, out) → q1.queue.length ≤ 300) ∧
      (∀ (ops : List (QueueOp AVFrame)) (q1 : FrameQueue) (out : List (Option AVFrame)),
        exec FrameQueue.new ops = some (q1, out) → q1.queue.length ≤ 30) := by
  refine ⟨fun q q1 op out hinv hmax h => bound_of_step q q1 op out hinv hmax h, ?_, ?_⟩
  · intro ops q1 out h
    obtain ⟨h1, h2⟩ := bound_of_exec PacketQueue.new q1 ops out (by decide) (by decide) h
    rw [h2] at h1
    have h3 : (q1.queue.length : Int) ≤ 300 := h1
    exact_mod_cast h3
  · intro ops q1 out h
    obtain ⟨h1, h2⟩ := bound_of_exec FrameQueue.new q1 ops out (by decide) (by decide) h
    rw [h2] at h1
    have h3 : (q1.queue.length : Int) ≤ 30 := h1
    exact_mod_cast h3

/-- A witness of C6: a push on a `FrameQueue` that holds 1 item of at most 2,
and a `FrameQueue` after two pushes, a pop, an abort, a push that is
discarded and a flush. -/
theorem C6_length_bounded_witness :
    (((TSQueue.mk [none, some (demo_frame 1)] 2 false : FrameQueue).queue.length : Int) ≤
          (TSQueue.mk [none, some (demo_frame 1)] 2 false : FrameQueue).max_size ∧
        (TSQueue.mk [none, some (demo_frame 1)] 2 false : FrameQueue).max_size =
          (TSQueue.mk [none] 2 false : FrameQueue).max_size) ∧
      (TSQueue.mk [] 30 true : FrameQueue).queue.length ≤ 30 :=
  ⟨(@C6_length_bounded AVFrame).1 (TSQueue.mk [none] 2 false)
      (TSQueue.mk [none, some (demo_frame 1)] 2 false) (QueueOp.push (some (demo_frame 1))) []
      (by decide) (by decide) rfl,
    (@C6_length_bounded AVFrame).2.2
      [QueueOp.push (some (demo_frame 1)), QueueOp.push (some (demo_frame 2)), QueueOp.pop,
        QueueOp.abort, QueueOp.push (some (demo_frame 3)), QueueOp.flush]
      (TSQueue.mk [] 30 true) [some (demo_frame 1)] rfl⟩

/-- C8: on a queue whose abort flag is set, `push` returns without
enqueuing, for every item and whatever the length: the state is unchanged
and the item, when it is not null, is released. On a queue that is not
aborted and has `length < max_size`, `push` appends the item at the tail and
releases nothing. -/
theorem C8_push_discards_after_abort (q : TSQueue α) (item : Option α) :
    (q.quit = true → q.push item = some (q, item.toList)) ∧
      (q.quit = false → (q.queue.length : Int) < q.max_size → q.max_size < 2 ^ 31 →
        q.push item = some ({ q with queue := q.queue ++ [item] }, [])) := by
  refine ⟨push_of_quit q item, ?_⟩
  intro hq hlen hmax
  have h0 : 0 ≤ q.max_size := le_trans (Int.ofNat_nonneg _) (le_of_lt hlen)
  have hsz := size_t_of_int_eq q.max_size h0 (lt_trans hmax (by norm_num))
  refine push_of_room q item hq ?_
  have : (q.queue.length : Int) < (size_t_of_int q.max_size : Int) := by rw [hsz]; exact hlen
  exact_mod_cast this

/-- A witness of C8: a push on an aborted queue that is full, and a push on
a live queue with room. -/
theorem C8_push_discards_after_abort_witness :
    (TSQueue.mk [some (demo_frame 1), none] 2 true : FrameQueue).push (some (demo_frame 2)) =
        some (TSQueue.mk [some (demo_frame 1), none] 2 true, (some (demo_frame 2)).toList) ∧
      (TSQueue.mk [some (demo_frame 1)] 30 false : FrameQueue).push none =
        some ({ (TSQueue.mk [some (demo_frame 1)] 30 false : FrameQueue) with
                queue := (TSQueue.mk [some (demo_frame 1)] 30 false : FrameQueue).queue ++ [none] },
              []) :=
  ⟨(C8_push_discards_after_abort
      (TSQueue.mk [some (demo_frame 1), none] 2 true : FrameQueue) (some (demo_frame 2))).1 rfl,
    (C8_push_discards_after_abort
      (TSQueue.mk [some (demo_frame 1)] 30 false : FrameQueue) none).2 rfl
      (by decide) (by decide)⟩

/-- C9: `abort` leaves the queued items untouched; after it, the next `n`
pops (`n` the number of queued items) return the items in order, and every
later pop returns `nullptr` without waiting, the queue staying empty. -/
theorem C9_drain_after_abort (q : TSQueue α) (k : Nat) :
    q.abort.queue = q.queue ∧ q.abort.quit = true ∧
      exec q.abort (List.replicate (q.queue.length + k) QueueOp.pop) =
        some ({ queue := [], max_size := q.max_size, quit := true },
          q.queue ++ List.replicate k none) :=
  ⟨rfl, rfl, exec_pops_aborted q.queue q.max_size k⟩

/-- C10: on an empty queue that is not aborted, with `N < max_size`, the
pushes of `N` non-null items and then of the null sentinel all complete, and
the `N + 1` pops that follow return the `N` items in push order and then the
sentinel, leaving the queue empty, where one more pop would wait. The same
holds when the pops are interleaved with the pushes: what has been popped is
always an initial segment of the items followed by the sentinel, and after
`N + 1` pops it is all of it and the queue is empty. -/
theorem C10_sentinel_after_items (q0 : TSQueue α) (items : List α)
    (hempty : q0.queue = []) (hq : q0.quit = false) (hmax : q0.max_size < 2 ^ 31)
    (hN : (items.length : Int) < q0.max_size) :
    exec q0 (items.map (fun x => QueueOp.push (some x)) ++ [QueueOp.push none] ++
        List.replicate (items.length + 1) QueueOp.pop) =
        some (q0, items.map some ++ [none]) ∧
      (∀ r ∈ items.map some, r ≠ none) ∧
      q0.pop = none ∧
      ∀ (ops : List (QueueOp α)) (q1 : TSQueue α) (out : List (Option α)),
        push_pop_only ops = true → pushed ops = items.map some ++ [none] →
        exec q0 ops = some (q1, out) →
        out <+: items.map some ++ [none] ∧
          (out.length = items.length + 1 → out = items.map some ++ [none] ∧ q1.queue = []) := by
  obtain ⟨l, m, b⟩ := q0
  simp only at hempty hq hmax hN
  subst hempty hq
  have h0 : 0 ≤ m := le_trans (Int.ofNat_nonneg _) (le_of_lt hN)
  have hsz := size_t_of_int_eq m h0 (lt_trans hmax (by norm_num))
  have hroom : ([] : List (Option α)).length + (items.map some ++ [none]).length ≤
      size_t_of_int m := by
    simp only [List.length_nil, List.length_append, List.length_map, List.length_singleton]
    have : ((items.length + 1 : Nat) : Int) ≤ (size_t_of_int m : Int) := by
      rw [hsz]
      push_cast
      omega
    omega
  have hpush : items.map (fun x => QueueOp.push (some x)) ++ [QueueOp.push none] =
      (items.map some ++ [none]).map QueueOp.push := by
    simp [List.map_append, List.map_map, Function.comp_def]
  have hlen : (items.map some ++ [none]).length = items.length + 1 := by simp
  refine ⟨?_, ?_, pop_of_nil_live _ rfl rfl, ?_⟩
  · rw [exec_append, hpush, exec_pushes_live _ [] m hroom]
    simp only [List.nil_append]
    rw [← hlen, exec_pops_live]
  · intro r hr
    obtain ⟨x, _, rfl⟩ := List.mem_map.mp hr
    exact Option.some_ne_none x
  · intro ops q1 out hops hpushed hexec
    have hf := (fifo_of_exec _ ops q1 out rfl hops hexec).1
    simp only [List.nil_append] at hf
    rw [hpushed] at hf
    refine ⟨⟨q1.queue, hf⟩, ?_⟩
    intro hl
    have hnil : q1.queue = [] := by
      have h1 := congrArg List.length hf
      rw [List.length_append, hlen, hl] at h1
      exact List.length_eq_zero.mp (by omega)
    rw [hnil, List.append_nil] at hf
    exact ⟨hf, hnil⟩

/-- A witness of C10: two packets and the sentinel through a `PacketQueue`. -/
theorem C10_sentinel_after_items_witness :
    exec PacketQueue.new
        ([AVPacket.mk 0 1, AVPacket.mk 0 2].map (fun x => QueueOp.push (some x)) ++
          [QueueOp.push none] ++
          List.replicate ([AVPacket.mk 0 1, AVPacket.mk 0 2].length + 1) QueueOp.pop) =
        some (PacketQueue.new, [AVPacket.mk 0 1, AVPacket.mk 0 2].map some ++ [none]) ∧
      (∀ r ∈ [AVPacket.mk 0 1, AVPacket.mk 0 2].map some, r ≠ none) ∧
      PacketQueue.new.pop = none ∧
      ∀ (ops : List (QueueOp AVPacket)) (q1 : TSQueue AVPacket) (out : List (Option AVPacket)),
        push_pop_only ops = true →
        pushed ops = [AVPacket.mk 0 1, AVPacket.mk 0 2].map some ++ [none] →
        exec PacketQueue.new ops = some (q1, out) →
        out <+: [AVPacket.mk 0 1, AVPacket.mk 0 2].map some ++ [none] ∧
          (out.length = [AVPacket.mk 0 1, AVPacket.mk 0 2].length + 1 →
            out = [AVPacket.mk 0 1, AVPacket.mk 0 2].map some ++ [none] ∧ q1.queue = []) :=
  C10_sentinel_after_items PacketQueue.new [AVPacket.mk 0 1, AVPacket.mk 0 2]
    rfl rfl (by decide) (by decide)

end QueueClaims

/-! ## The queue claims, continued -/

section QueueClaimsSentinel

variable {α : Type}

/-- C11, as stated, fails: `pop` returns the same null pointer when it
dequeues the end-of-input sentinel from a live queue and when it gives the
terminal signal on an aborted empty queue. -/
theorem C11_same_null_result_counterexample :
    (TSQueue.mk [none] 30 false : FrameQueue).pop = some (TSQueue.mk [] 30 false, none) ∧
      (TSQueue.mk [] 30 true : FrameQueue).pop = some (TSQueue.mk [] 30 true, none) ∧
      ((TSQueue.mk [none] 30 false : FrameQueue).pop).map Prod.snd =
        ((TSQueue.mk [] 30 true : FrameQueue).pop).map Prod.snd :=
  ⟨rfl, rfl, rfl⟩

/-- C11, amended: `pop` returns the null pointer both for a dequeued
end-of-input sentinel and as the terminal signal on an aborted empty queue;
the two are told apart by the state, not by the result: a null result on a
queue that is not aborted is always a dequeued sentinel (the queue loses its
head), and the terminal signal is given only when the abort flag is set and
leaves the queue as it was. -/
theorem C11_null_result_needs_abort_flag (q q1 : TSQueue α)
    (h : q.pop = some (q1, none)) :
    ((∃ rest, q.queue = none :: rest ∧ q1 = { q with queue := rest }) ∨
        (q.queue = [] ∧ q.quit = true ∧ q1 = q)) ∧
      (q.quit = false → ∃ rest, q.queue = none :: rest ∧ q1 = { q with queue := rest }) ∧
      (q.queue = [] → q.quit = true ∧ q1 = q) := by
  cases hl : q.queue with
  | nil =>
    cases hq : q.quit with
    | false => simp [pop_of_nil_live q hl hq] at h
    | true =>
      rw [pop_of_nil_quit q hl hq] at h
      simp only [Option.some.injEq, Prod.mk.injEq, and_true] at h
      exact ⟨Or.inr ⟨rfl, rfl, h.symm⟩, fun hf => by simp at hf, fun _ => ⟨rfl, h.symm⟩⟩
  | cons pkt rest =>
    rw [pop_of_cons q pkt rest hl] at h
    simp only [Option.some.injEq, Prod.mk.injEq] at h
    obtain ⟨h1, h2⟩ := h
    subst h2
    exact ⟨Or.inl ⟨rest, rfl, h1.symm⟩, fun _ => ⟨rest, rfl, h1.symm⟩, fun hf => by simp at hf⟩

/-- A witness of the amended C11: the sentinel at the head of a live queue. -/
theorem C11_null_result_needs_abort_flag_witness :
    ((∃ rest, (TSQueue.mk [none, some (demo_frame 1)] 30 false : FrameQueue).queue =
            none :: rest ∧
          (TSQueue.mk [some (demo_frame 1)] 30 false : FrameQueue) =
            { (TSQueue.mk [none, some (demo_frame 1)] 30 false : FrameQueue) with
              queue := rest }) ∨
        ((TSQueue.mk [none, some (demo_frame 1)] 30 false : FrameQueue).queue = [] ∧
          (TSQueue.mk [none, some (demo_frame 1)] 30 false : FrameQueue).quit = true ∧
          (TSQueue.mk [some (demo_frame 1)] 30 false : FrameQueue) =
            (TSQueue.mk [none, some (demo_frame 1)] 30 false : FrameQueue))) ∧
      ((TSQueue.mk [none, some (demo_frame 1)] 30 false : FrameQueue).quit = false →
        ∃ rest, (TSQueue.mk [none, some (demo_frame 1)] 30 false : FrameQueue).queue =
            none :: rest ∧
          (TSQueue.mk [some (demo_frame 1)] 30 false : FrameQueue) =
            { (TSQueue.mk [none, some (demo_frame 1)] 30 false : FrameQueue) with
              queue := rest }) ∧
      ((TSQueue.mk [none, some (demo_frame 1)] 30 false : FrameQueue).queue = [] →
        (TSQueue.mk [none, some (demo_frame 1)] 30 false : FrameQueue).quit = true ∧
          (TSQueue.mk [some (demo_frame 1)] 30 false : FrameQueue) =
            (TSQueue.mk [none, some (demo_frame 1)] 30 false : FrameQueue)) :=
  C11_null_result_needs_abort_flag (TSQueue.mk [none, some (demo_frame 1)] 30 false)
    (TSQueue.mk [some (demo_frame 1)] 30 false) rfl

end QueueClaimsSentinel

/-! ## Lemmas on `main_loop` -/

section LoopLemmas

open VideoPlayer

theorem render_of_null_pop (s : VideoPlayer) (q : FrameQueue) (clock_now delay_now : Int)
    (hpop : s.video_frame_q.pop = some (q, none)) :
    s.render_video_frame clock_now delay_now =
      some ({ s with video_frame_q := q, quit := true }, []) := by
  simp [render_video_frame, hpop]

/-- The three ways in which a call of `render_video_frame` completes. -/
theorem render_cases (s s1 : VideoPlayer) (clock_now delay_now : Int) (events : List Event)
    (h : s.render_video_frame clock_now delay_now = some (s1, events)) :
    (∃ q, s.video_frame_q.pop = some (q, none) ∧
        s1 = { s with video_frame_q := q, quit := true } ∧ events = []) ∨
      (∃ q frame, s.video_frame_q.pop = some (q, some frame) ∧
        diff_of s frame clock_now < -1 ∧
        s1 = { s with video_frame_q := q,
                      frame_last_delay := frame_delay_of s (video_pts_of s frame),
                      frame_last_pts := video_pts_of s frame } ∧
        events = [Event.log_drop (diff_of s frame clock_now), Event.av_frame_free frame]) ∨
      (∃ q frame, s.video_frame_q.pop = some (q, some frame) ∧
        -1 ≤ diff_of s frame clock_now ∧
        s1 = { s with video_frame_q := q,
                      frame_last_delay := frame_delay_of s (video_pts_of s frame),
                      frame_last_pts := video_pts_of s frame,
                      frame_timer := s.frame_timer +
                        sync_delay_of (frame_delay_of s (video_pts_of s frame))
                          (diff_of s frame clock_now) } ∧
        events = [Event.SDL_Delay (Uint32_of_double
            (actual_delay_of (s.frame_timer +
                sync_delay_of (frame_delay_of s (video_pts_of s frame))
                  (diff_of s frame clock_now)) delay_now * 1000 + 1 / 2)),
          Event.display_frame frame, Event.av_frame_free frame]) := by
  cases hp : s.video_frame_q.pop with
  | none => simp [render_video_frame, hp] at h
  | some r =>
    obtain ⟨q, item⟩ := r
    cases item with
    | none =>
      rw [render_of_null_pop s q clock_now delay_now hp] at h
      simp only [Option.some.injEq, Prod.mk.injEq] at h
      exact Or.inl ⟨q, rfl, h.1.symm, h.2.symm⟩
    | some frame =>
      rw [render_of_pop s q frame clock_now delay_now hp] at h
      by_cases hd : diff_of s frame clock_now < -1
      · have hd1 : diff_of { s with video_frame_q := q } frame clock_now < -1 := hd
        rw [render_frame_drop _ frame clock_now delay_now hd1] at h
        simp only [Option.some.injEq, Prod.mk.injEq] at h
        exact Or.inr (Or.inl ⟨q, frame, rfl, hd, h.1.symm, h.2.symm⟩)
      · have hd1 : -1 ≤ diff_of { s with video_frame_q := q } frame clock_now := not_lt.mp hd
        rw [render_frame_present _ frame clock_now delay_now hd1] at h
        simp only [Option.some.injEq, Prod.mk.injEq] at h
        exact Or.inr (Or.inr ⟨q, frame, rfl, not_lt.mp hd, h.1.symm, h.2.symm⟩)

theorem sync_delay_of_ge (frame_delay diff : ℚ) : 1 / 100 ≤ sync_delay_of frame_delay diff := by
  rw [sync_delay_of_eq_max]
  exact le_max_right _ _

theorem render_frame_timer_le (s s1 : VideoPlayer) (clock_now delay_now : Int)
    (events : List Event) (h : s.render_video_frame clock_now delay_now = some (s1, events)) :
    s.frame_timer ≤ s1.frame_timer := by
  rcases render_cases s s1 clock_now delay_now events h with
    ⟨q, _, rfl, _⟩ | ⟨q, frame, _, _, rfl, _⟩ | ⟨q, frame, _, _, rfl, _⟩
  · exact le_refl _
  · exact le_refl _
  · have := sync_delay_of_ge (frame_delay_of s (video_pts_of s frame))
      (diff_of s frame clock_now)
    show s.frame_timer ≤ s.frame_timer + _
    linarith

theorem poll_events_frame_timer (s : VideoPlayer) (types : List Nat) :
    (poll_events s types).frame_timer = s.frame_timer := by
  induction types generalizing s with
  | nil => rfl
  | cons type rest ih =>
    unfold poll_events
    split
    · rw [ih]
    · rw [ih]

theorem main_loop_cons (s : VideoPlayer) (t : Tick) (rest : List Tick) :
    main_loop s (t :: rest) =
      if s.quit = true then some (s, [])
      else if (poll_events s t.events).quit = true then some (poll_events s t.events, [])
      else
        match render_video_frame (with_tick (poll_events s t.events) t) t.clock_now
            t.delay_now with
        | none => none
        | some (s2, events) =>
          match main_loop s2 rest with
          | none => none
          | some (s3, later) => some (s3, events ++ later) := rfl

theorem main_loop_of_quit (s : VideoPlayer) (ticks : List Tick) (h : s.quit = true) :
    main_loop s ticks = some (s, []) := by
  cases ticks with
  | nil => rfl
  | cons t rest => rw [main_loop_cons, if_pos h]

theorem main_loop_frame_timer_le (s s2 : VideoPlayer) (ticks : List Tick) (events : List Event)
    (h : main_loop s ticks = some (s2, events)) : s.frame_timer ≤ s2.frame_timer := by
  induction ticks generalizing s events with
  | nil =>
    simp only [main_loop, Option.some.injEq, Prod.mk.injEq] at h
    rw [← h.1]
  | cons t rest ih =>
    rw [main_loop_cons] at h
    by_cases hq : s.quit = true
    · rw [if_pos hq] at h
      simp only [Option.some.injEq, Prod.mk.injEq] at h
      rw [← h.1]
    · rw [if_neg hq] at h
      by_cases hp : (poll_events s t.events).quit = true
      · rw [if_pos hp] at h
        simp only [Option.some.injEq, Prod.mk.injEq] at h
        rw [← h.1, poll_events_frame_timer]
      · rw [if_neg hp] at h
        cases hr : render_video_frame (with_tick (poll_events s t.events) t) t.clock_now
            t.delay_now with
        | none => simp [hr] at h
        | some r =>
          obtain ⟨sa, eva⟩ := r
          simp only [hr] at h
          cases hm : main_loop sa rest with
          | none => simp [hm] at h
          | some r2 =>
            obtain ⟨sb, evb⟩ := r2
            simp only [hm, Option.some.injEq, Prod.mk.injEq] at h
            obtain ⟨rfl, _⟩ := h
            have h1 := render_frame_timer_le _ sa t.clock_now t.delay_now eva hr
            have h2 := ih sa evb hm
            have h3 : (with_tick (poll_events s t.events) t).frame_timer = s.frame_timer :=
              poll_events_frame_timer s t.events
            rw [h3] at h1
            exact le_trans h1 h2

theorem main_loop_append (s : VideoPlayer) (a b : List Tick) :
    main_loop s (a ++ b) =
      match main_loop s a with
      | none => none
      | some (s1, events) =>
        match main_loop s1 b with
        | none => none
        | some (s2, later) => some (s2, events ++ later) := by
  induction a generalizing s with
  | nil =>
    simp only [List.nil_append, main_loop]
    cases main_loop s b with
    | none => rfl
    | some r => simp
  | cons t rest ih =>
    rw [List.cons_append, main_loop_cons, main_loop_cons]
    by_cases hq : s.quit = true
    · simp only [if_pos hq, main_loop_of_quit s b hq, List.append_nil]
    · simp only [if_neg hq]
      by_cases hp : (poll_events s t.events).quit = true
      · simp only [if_pos hp, main_loop_of_quit _ b hp, List.append_nil]
      · simp only [if_neg hp]
        cases render_video_frame (with_tick (poll_events s t.events) t) t.clock_now
            t.delay_now with
        | none => rfl
        | some r =>
          obtain ⟨sa, eva⟩ := r
          simp only [ih]
          cases main_loop sa rest with
          | none => rfl
          | some r1 =>
            obtain ⟨sb, evb⟩ := r1
            simp only
            cases main_loop sb b with
            | none => rfl
            | some r2 => simp [List.append_assoc]

theorem Uint32_of_double_bounds (x : ℚ) (h0 : 0 ≤ x) (h1 : x < 2 ^ 32) :
    (Uint32_of_double x : ℚ) ≤ x ∧ x < (Uint32_of_double x : ℚ) + 1 := by
  have hf0 : 0 ≤ ⌊x⌋ := Int.floor_nonneg.mpr h0
  have hf1 : ⌊x⌋ < 2 ^ 32 := by
    have : (⌊x⌋ : ℚ) < ((2 ^ 32 : Int) : ℚ) := by
      push_cast
      exact lt_of_le_of_lt (Int.floor_le x) h1
    exact_mod_cast this
  have hnat : Int.toNat ⌊x⌋ < 2 ^ 32 := by omega
  have hcast : ((Uint32_of_double x : Nat) : Int) = ⌊x⌋ := by
    unfold Uint32_of_double
    rw [Nat.mod_eq_of_lt hnat]
    exact Int.toNat_of_nonneg hf0
  have hq : (Uint32_of_double x : ℚ) = (⌊x⌋ : ℚ) := by exact_mod_cast hcast
  rw [hq]
  exact ⟨Int.floor_le x, Int.lt_floor_add_one x⟩

theorem actual_delay_of_eq_max (frame_timer : ℚ) (now : Int) :
    actual_delay_of frame_timer now = max (frame_timer - (now : ℚ) / 1000000) (10 / 1000) := by
  unfold actual_delay_of
  by_cases h : frame_timer - (now : ℚ) / 1000000 < 10 / 1000
  · simp only [h, if_true]
    exact (max_eq_right (le_of_lt h)).symm
  · simp only [h, if_false]
    exact (max_eq_left (not_lt.mp h)).symm

end LoopLemmas

/-! ## The pacing claims, continued -/

section PacingClaimsLoop

open VideoPlayer

/-- C12: `frame_timer` never decreases. A call of `render_video_frame`
leaves it unchanged when it presents nothing (the frame is dropped, or the
pop returned null) and adds exactly `sync_delay`, which is at least 0.01,
when it presents a frame; and over every run of `main_loop`, whatever the
other threads and the clock do, the value at an earlier point of the run is
at most the value at a later point. -/
theorem C12_frame_timer_never_decreases (s : VideoPlayer) :
    (∀ (clock_now delay_now : Int) (s1 : VideoPlayer) (events : List Event),
        s.render_video_frame clock_now delay_now = some (s1, events) →
        s.frame_timer ≤ s1.frame_timer ∧
          ((∀ e ∈ events, e.is_display = false) → s1.frame_timer = s.frame_timer) ∧
          (∀ frame, Event.display_frame frame ∈ events →
            s1.frame_timer = s.frame_timer +
                sync_delay_of (frame_delay_of s (video_pts_of s frame))
                  (diff_of s frame clock_now) ∧
              1 / 100 ≤ sync_delay_of (frame_delay_of s (video_pts_of s frame))
                (diff_of s frame clock_now))) ∧
      (∀ (a b : List Tick) (s2 : VideoPlayer) (events : List Event),
        main_loop s (a ++ b) = some (s2, events) →
        ∃ s1 earlier, main_loop s a = some (s1, earlier) ∧
          s.frame_timer ≤ s1.frame_timer ∧ s1.frame_timer ≤ s2.frame_timer) := by
  refine ⟨?_, ?_⟩
  · intro clock_now delay_now s1 events h
    refine ⟨render_frame_timer_le s s1 clock_now delay_now events h, ?_, ?_⟩
    · intro hnone
      rcases render_cases s s1 clock_now delay_now events h with
        ⟨q, _, rfl, _⟩ | ⟨q, frame, _, _, rfl, _⟩ | ⟨q, frame, _, _, _, rfl⟩
      · rfl
      · rfl
      · have := (hnone (Event.display_frame frame) (by simp)).symm
        simp [Event.is_display] at this
    · intro frame hmem
      rcases render_cases s s1 clock_now delay_now events h with
        ⟨q, _, _, rfl⟩ | ⟨q, frame1, _, _, _, rfl⟩ | ⟨q, frame1, _, _, rfl, rfl⟩
      · simp at hmem
      · simp at hmem
      · simp only [List.mem_cons, List.mem_singleton, Event.display_frame.injEq,
          List.not_mem_nil, or_false, reduceCtorEq, false_or] at hmem
        subst hmem
        exact ⟨rfl, sync_delay_of_ge _ _⟩
  · intro a b s2 events h
    rw [main_loop_append] at h
    cases ha : main_loop s a with
    | none => simp [ha] at h
    | some r =>
      obtain ⟨s1, earlier⟩ := r
      simp only [ha] at h
      cases hb : main_loop s1 b with
      | none => simp [hb] at h
      | some r2 =>
        obtain ⟨sb, later⟩ := r2
        simp only [hb, Option.some.injEq, Prod.mk.injEq] at h
        obtain ⟨rfl, _⟩ := h
        exact ⟨s1, earlier, rfl, main_loop_frame_timer_le s s1 a earlier ha,
          main_loop_frame_timer_le s1 sb b later hb⟩

/-- A witness of C12: a call that presents the frame of the soft floor
example, and a run of `main_loop` that ends on the sentinel. -/
theorem C12_frame_timer_never_decreases_witness :
    ((demo_player_with 1020 (105 / 100) 1).frame_timer ≤
          (render_frame { demo_player_with 1020 (105 / 100) 1 with
              video_frame_q := FrameQueue.new } (demo_frame 1020) 0 0).1.frame_timer ∧
        ((∀ e ∈ (render_frame { demo_player_with 1020 (105 / 100) 1 with
              video_frame_q := FrameQueue.new } (demo_frame 1020) 0 0).2,
            e.is_display = false) →
          (render_frame { demo_player_with 1020 (105 / 100) 1 with
              video_frame_q := FrameQueue.new } (demo_frame 1020) 0 0).1.frame_timer =
            (demo_player_with 1020 (105 / 100) 1).frame_timer) ∧
        (∀ frame, Event.display_frame frame ∈
            (render_frame { demo_player_with 1020 (105 / 100) 1 with
              video_frame_q := FrameQueue.new } (demo_frame 1020) 0 0).2 →
          (render_frame { demo_player_with 1020 (105 / 100) 1 with
              video_frame_q := FrameQueue.new } (demo_frame 1020) 0 0).1.frame_timer =
              (demo_player_with 1020 (105 / 100) 1).frame_timer +
                sync_delay_of
                  (frame_delay_of (demo_player_with 1020 (105 / 100) 1)
                    (video_pts_of (demo_player_with 1020 (105 / 100) 1) frame))
                  (diff_of (demo_player_with 1020 (105 / 100) 1) frame 0) ∧
            1 / 100 ≤ sync_delay_of
              (frame_delay_of (demo_player_with 1020 (105 / 100) 1)
                (video_pts_of (demo_player_with 1020 (105 / 100) 1) frame))
              (diff_of (demo_player_with 1020 (105 / 100) 1) frame 0))) ∧
      ∃ s1 earlier, main_loop demo_player [demo_tick_end] = some (s1, earlier) ∧
        demo_player.frame_timer ≤ s1.frame_timer ∧
        s1.frame_timer ≤ demo_player_ended.frame_timer :=
  ⟨(C12_frame_timer_never_decreases (demo_player_with 1020 (105 / 100) 1)).1 0 0
      (render_frame { demo_player_with 1020 (105 / 100) 1 with
          video_frame_q := FrameQueue.new } (demo_frame 1020) 0 0).1
      (render_frame { demo_player_with 1020 (105 / 100) 1 with
          video_frame_q := FrameQueue.new } (demo_frame 1020) 0 0).2
      (render_of_pop (demo_player_with 1020 (105 / 100) 1) FrameQueue.new (demo_frame 1020)
        0 0 rfl),
    (C12_frame_timer_never_decreases demo_player).2 [demo_tick_end] [] demo_player_ended []
      rfl⟩

/-- C13, as stated, fails: with `frame_timer_before = 0`, `sync_delay =
0.0304` and the clock at 0, the value `max(frame_timer_after - now, 0.010)` is
0.0304 s, and the call sleeps 30 ms before it displays the frame. -/
theorem C13_sleep_is_whole_milliseconds_counterexample :
    (demo_player_with 1020 (631 / 625) 1).video_frame_q.pop =
        some (FrameQueue.new, some (demo_frame 1020)) ∧
      ∃ s1, (demo_player_with 1020 (631 / 625) 1).render_video_frame 0 0 =
          some (s1, [Event.SDL_Delay 30, Event.display_frame (demo_frame 1020),
            Event.av_frame_free (demo_frame 1020)]) ∧
        s1.frame_timer = (demo_player_with 1020 (631 / 625) 1).frame_timer + 19 / 625 ∧
        max (s1.frame_timer - ((0 : Int) : ℚ) / 1000000) (10 / 1000) = 19 / 625 ∧
        ((30 : Nat) : ℚ) / 1000 ≠ max (s1.frame_timer - ((0 : Int) : ℚ) / 1000000) (10 / 1000) := by
  have hv : video_pts_of (demo_player_with 1020 (631 / 625) 1) (demo_frame 1020) = 51 / 50 := by
    norm_num [video_pts_of, demo_player_with, demo_player, demo_frame, demo_video_stream,
      av_q2d, AV_NOPTS_VALUE]
  have hfd : frame_delay_of (demo_player_with 1020 (631 / 625) 1) (51 / 50) = 1 / 50 := by
    norm_num [frame_delay_of, demo_player_with, demo_player, demo_video_stream, av_q2d]
  have hd : diff_of (demo_player_with 1020 (631 / 625) 1) (demo_frame 1020) 0 = 13 / 1250 := by
    rw [diff_of, hv]
    norm_num [get_audio_clock, demo_player_with, demo_player, int_of_unsigned, unsigned_sub,
      int_wrap, av_get_bytes_per_sample_S16]
  have hs : sync_delay_of (1 / 50) (13 / 1250) = 19 / 625 := by
    norm_num [sync_delay_of, AV_SYNC_THRESHOLD]
  have hft : (demo_player_with 1020 (631 / 625) 1).frame_timer = 0 := rfl
  have ha : actual_delay_of (0 + 19 / 625) 0 = 19 / 625 := by
    norm_num [actual_delay_of]
  have hu : Uint32_of_double (19 / 625 * 1000 + 1 / 2) = 30 := by
    have hfl : ⌊(19 / 625 * 1000 + 1 / 2 : ℚ)⌋ = 30 := by
      rw [Int.floor_eq_iff]
      constructor <;> norm_num
    unfold Uint32_of_double
    rw [hfl]
    rfl
  have hp : -1 ≤ diff_of { demo_player_with 1020 (631 / 625) 1 with
      video_frame_q := FrameQueue.new } (demo_frame 1020) 0 := by
    have : diff_of { demo_player_with 1020 (631 / 625) 1 with
        video_frame_q := FrameQueue.new } (demo_frame 1020) 0 = 13 / 1250 := hd
    rw [this]
    norm_num
  have hr := render_frame_present { demo_player_with 1020 (631 / 625) 1 with
      video_frame_q := FrameQueue.new } (demo_frame 1020) 0 0 hp
  have hv1 : video_pts_of { demo_player_with 1020 (631 / 625) 1 with
      video_frame_q := FrameQueue.new } (demo_frame 1020) = 51 / 50 := hv
  have hd1 : diff_of { demo_player_with 1020 (631 / 625) 1 with
      video_frame_q := FrameQueue.new } (demo_frame 1020) 0 = 13 / 1250 := hd
  have hfd1 : frame_delay_of { demo_player_with 1020 (631 / 625) 1 with
      video_frame_q := FrameQueue.new } (51 / 50) = 1 / 50 := hfd
  rw [hv1, hd1, hfd1, hs] at hr
  have hft1 : ({ demo_player_with 1020 (631 / 625) 1 with
      video_frame_q := FrameQueue.new } : VideoPlayer).frame_timer = 0 := rfl
  rw [hft1, ha, hu] at hr
  refine ⟨rfl, _, (render_of_pop (demo_player_with 1020 (631 / 625) 1) FrameQueue.new
    (demo_frame 1020) 0 0 rfl).trans (congrArg some hr), ?_, ?_, ?_⟩
  · simp only [hft]
  · show max ((0 : ℚ) + 19 / 625 - ((0 : Int) : ℚ) / 1000000) (10 / 1000) = 19 / 625
    norm_num
  · show ((30 : Nat) : ℚ) / 1000 ≠
      max ((0 : ℚ) + 19 / 625 - ((0 : Int) : ℚ) / 1000000) (10 / 1000)
    norm_num

/-- C13, amended: for every presented frame, the call sleeps
`max(frame_timer_after - now, 0.010)` converted to whole milliseconds, namely
`static_cast<Uint32>(actual_delay * 1000 + 0.5)` ms, which is within half a
millisecond of that value when it is below `2 ^ 32` ms; here
`frame_timer_after = frame_timer_before + sync_delay` and `now` is the
wall-clock reading in seconds. The frame is handed to `display_frame` only
after that sleep: the events of the call are the sleep, the display, the
release, in this order. -/
theorem C13_sleep_before_display (s : VideoPlayer) (q : FrameQueue) (frame : AVFrame)
    (clock_now delay_now : Int)
    (hpop : s.video_frame_q.pop = some (q, some frame))
    (hdiff : -1 ≤ diff_of s frame clock_now) :
    ∃ s1 ms, s.render_video_frame clock_now delay_now =
        some (s1, [Event.SDL_Delay ms, Event.display_frame frame,
          Event.av_frame_free frame]) ∧
      s1.frame_timer = s.frame_timer +
        sync_delay_of (frame_delay_of s (video_pts_of s frame)) (diff_of s frame clock_now) ∧
      ms = Uint32_of_double
        (max (s1.frame_timer - (delay_now : ℚ) / 1000000) (10 / 1000) * 1000 + 1 / 2) ∧
      (max (s1.frame_timer - (delay_now : ℚ) / 1000000) (10 / 1000) * 1000 + 1 / 2 < 2 ^ 32 →
        |(ms : ℚ) / 1000 - max (s1.frame_timer - (delay_now : ℚ) / 1000000) (10 / 1000)| ≤
          1 / 2000) := by
  have hd : -1 ≤ diff_of { s with video_frame_q := q } frame clock_now := hdiff
  have hr := render_frame_present { s with video_frame_q := q } frame clock_now delay_now hd
  refine ⟨_, _, (render_of_pop s q frame clock_now delay_now hpop).trans (congrArg some hr),
    rfl, ?_, ?_⟩
  · rw [actual_delay_of_eq_max]
  · intro hlt
    rw [actual_delay_of_eq_max]
    show |((Uint32_of_double (max (s.frame_timer + sync_delay_of
        (frame_delay_of s (video_pts_of s frame)) (diff_of s frame clock_now) -
        (delay_now : ℚ) / 1000000) (10 / 1000) * 1000 + 1 / 2) : Nat) : ℚ) / 1000 -
      max (s.frame_timer + sync_delay_of (frame_delay_of s (video_pts_of s frame))
        (diff_of s frame clock_now) - (delay_now : ℚ) / 1000000) (10 / 1000)| ≤ 1 / 2000
    have hlt1 : max (s.frame_timer + sync_delay_of (frame_delay_of s (video_pts_of s frame))
        (diff_of s frame clock_now) - (delay_now : ℚ) / 1000000) (10 / 1000) * 1000 + 1 / 2 <
        2 ^ 32 := hlt
    have hge : (10 / 1000 : ℚ) ≤ max (s.frame_timer +
        sync_delay_of (frame_delay_of s (video_pts_of s frame)) (diff_of s frame clock_now) -
        (delay_now : ℚ) / 1000000) (10 / 1000) := le_max_right _ _
    generalize max (s.frame_timer + sync_delay_of (frame_delay_of s (video_pts_of s frame))
        (diff_of s frame clock_now) - (delay_now : ℚ) / 1000000) (10 / 1000) = A
      at hlt1 hge ⊢
    obtain ⟨h1, h2⟩ := Uint32_of_double_bounds (A * 1000 + 1 / 2) (by linarith) hlt1
    rw [abs_le]
    constructor <;> linarith

/-- A witness of the amended C13: the frame of the soft floor example. -/
theorem C13_sleep_before_display_witness :
    (demo_player_with 1020 (105 / 100) 1).video_frame_q.pop =
        some (FrameQueue.new, some (demo_frame 1020)) ∧
      -1 ≤ diff_of (demo_player_with 1020 (105 / 100) 1) (demo_frame 1020) 0 ∧
      ∃ s1 ms, (demo_player_with 1020 (105 / 100) 1).render_video_frame 0 0 =
          some (s1, [Event.SDL_Delay ms, Event.display_frame (demo_frame 1020),
            Event.av_frame_free (demo_frame 1020)]) ∧
        s1.frame_timer = (demo_player_with 1020 (105 / 100) 1).frame_timer +
          sync_delay_of
            (frame_delay_of (demo_player_with 1020 (105 / 100) 1)
              (video_pts_of (demo_player_with 1020 (105 / 100) 1) (demo_frame 1020)))
            (diff_of (demo_player_with 1020 (105 / 100) 1) (demo_frame 1020) 0) ∧
        ms = Uint32_of_double
          (max (s1.frame_timer - ((0 : Int) : ℚ) / 1000000) (10 / 1000) * 1000 + 1 / 2) ∧
        (max (s1.frame_timer - ((0 : Int) : ℚ) / 1000000) (10 / 1000) * 1000 + 1 / 2 < 2 ^ 32 →
          |(ms : ℚ) / 1000 - max (s1.frame_timer - ((0 : Int) : ℚ) / 1000000) (10 / 1000)| ≤
            1 / 2000) :=
  ⟨rfl, by norm_num [diff_of, video_pts_of, get_audio_clock, demo_player_with, demo_player,
      demo_frame, demo_video_stream, av_q2d, AV_NOPTS_VALUE, int_of_unsigned, unsigned_sub,
      int_wrap, av_get_bytes_per_sample_S16],
    C13_sleep_before_display (demo_player_with 1020 (105 / 100) 1) FrameQueue.new
      (demo_frame 1020) 0 0 rfl
      (by norm_num [diff_of, video_pts_of, get_audio_clock, demo_player_with, demo_player,
        demo_frame, demo_video_stream, av_q2d, AV_NOPTS_VALUE, int_of_unsigned, unsigned_sub,
        int_wrap, av_get_bytes_per_sample_S16])⟩

/-- C14: with `audio_stream_index == -1`, `get_audio_clock` returns the
reading of `av_gettime()` divided by 1,000,000, whatever `audio_clock` and the
buffer cursors hold; so a later call, made at a reading that is not smaller,
returns a value that is not smaller. -/
theorem C14_clock_without_audio (s s1 : VideoPlayer) (now now1 : Int)
    (h : s.audio_stream_index = -1) (h1 : s1.audio_stream_index = -1) :
    s.get_audio_clock now = (now : ℚ) / 1000000 ∧
      (now ≤ now1 → s.get_audio_clock now ≤ s1.get_audio_clock now1) := by
  have e : s.get_audio_clock now = (now : ℚ) / 1000000 := by
    unfold get_audio_clock
    rw [if_pos h]
  have e1 : s1.get_audio_clock now1 = (now1 : ℚ) / 1000000 := by
    unfold get_audio_clock
    rw [if_pos h1]
  refine ⟨e, ?_⟩
  intro hle
  rw [e, e1]
  have : (now : ℚ) ≤ (now1 : ℚ) := by exact_mod_cast hle
  linarith

/-- A witness of C14: two players without audio stream, with different
`audio_clock` and cursors, read at 1.5 s and at 2 s. -/
theorem C14_clock_without_audio_witness :
    get_audio_clock { demo_player with audio_stream_index := -1, audio_clock := 7 } 1500000 =
        ((1500000 : Int) : ℚ) / 1000000 ∧
      ((1500000 : Int) ≤ 2000000 →
        get_audio_clock { demo_player with audio_stream_index := -1, audio_clock := 7 }
            1500000 ≤
          get_audio_clock { demo_player with audio_stream_index := -1, audio_buf_size := 512 }
            2000000) :=
  C14_clock_without_audio { demo_player with audio_stream_index := -1, audio_clock := 7 }
    { demo_player with audio_stream_index := -1, audio_buf_size := 512 } 1500000 2000000
    rfl rfl

/-- C19: when the pop of the video frame queue returns null,
`render_video_frame` sets `quit`, has no effect on the outside world (no
sleep, no display), and leaves `frame_timer`, `frame_last_pts` and
`frame_last_delay` unchanged; from the state it leaves, `main_loop` ends
without a further call of `render_video_frame`, whatever comes next. -/
theorem C19_null_frame_ends_loop (s : VideoPlayer) (q : FrameQueue)
    (clock_now delay_now : Int)
    (hpop : s.video_frame_q.pop = some (q, none)) :
    ∃ s1, s.render_video_frame clock_now delay_now = some (s1, []) ∧
      s1.quit = true ∧
      s1.frame_timer = s.frame_timer ∧
      s1.frame_last_pts = s.frame_last_pts ∧
      s1.frame_last_delay = s.frame_last_delay ∧
      ∀ ticks, main_loop s1 ticks = some (s1, []) :=
  ⟨_, render_of_null_pop s q clock_now delay_now hpop, rfl, rfl, rfl, rfl,
    fun ticks => main_loop_of_quit _ ticks rfl⟩

/-- A witness of C19: the sentinel at the head of the video frame queue. -/
theorem C19_null_frame_ends_loop_witness :
    ∃ s1, (with_tick demo_player demo_tick_end).render_video_frame 0 0 = some (s1, []) ∧
      s1.quit = true ∧
      s1.frame_timer = (with_tick demo_player demo_tick_end).frame_timer ∧
      s1.frame_last_pts = (with_tick demo_player demo_tick_end).frame_last_pts ∧
      s1.frame_last_delay = (with_tick demo_player demo_tick_end).frame_last_delay ∧
      ∀ ticks, main_loop s1 ticks = some (s1, []) :=
  C19_null_frame_ends_loop (with_tick demo_player demo_tick_end) FrameQueue.new 0 0 rfl

/-- C20: for a popped frame whose timestamp is `AV_NOPTS_VALUE`, `video_pts`
is `frame_last_pts + frame_last_delay` of the state before the call, so the
frame delay before the range test, `video_pts - frame_last_pts`, is the
previous `frame_last_delay`; the call stores that `video_pts` in
`frame_last_pts`. -/
theorem C20_unknown_timestamp_extrapolates (s : VideoPlayer) (q : FrameQueue)
    (frame : AVFrame) (clock_now delay_now : Int)
    (hpop : s.video_frame_q.pop = some (q, some frame))
    (hts : frame.best_effort_timestamp = AV_NOPTS_VALUE) :
    video_pts_of s frame = s.frame_last_pts + s.frame_last_delay ∧
      video_pts_of s frame - s.frame_last_pts = s.frame_last_delay ∧
      ∃ s1 events, s.render_video_frame clock_now delay_now = some (s1, events) ∧
        s1.frame_last_pts = s.frame_last_pts + s.frame_last_delay := by
  have hv : video_pts_of s frame = s.frame_last_pts + s.frame_last_delay := by
    unfold video_pts_of
    simp [hts]
  refine ⟨hv, ?_, ?_⟩
  · rw [hv]
    ring
  · exact ⟨_, _, render_of_pop s q frame clock_now delay_now hpop,
      ((render_frame_last { s with video_frame_q := q } frame clock_now delay_now).2).trans hv⟩

/-- A witness of C20: a frame without timestamp after a frame at 1.00 s. -/
theorem C20_unknown_timestamp_extrapolates_witness :
    (demo_player_with AV_NOPTS_VALUE 1 1).video_frame_q.pop =
        some (FrameQueue.new, some (demo_frame AV_NOPTS_VALUE)) ∧
      (demo_frame AV_NOPTS_VALUE).best_effort_timestamp = AV_NOPTS_VALUE ∧
      video_pts_of (demo_player_with AV_NOPTS_VALUE 1 1) (demo_frame AV_NOPTS_VALUE) =
        (demo_player_with AV_NOPTS_VALUE 1 1).frame_last_pts +
          (demo_player_with AV_NOPTS_VALUE 1 1).frame_last_delay ∧
      video_pts_of (demo_player_with AV_NOPTS_VALUE 1 1) (demo_frame AV_NOPTS_VALUE) -
          (demo_player_with AV_NOPTS_VALUE 1 1).frame_last_pts =
        (demo_player_with AV_NOPTS_VALUE 1 1).frame_last_delay ∧
      ∃ s1 events, (demo_player_with AV_NOPTS_VALUE 1 1).render_video_frame 0 0 =
          some (s1, events) ∧
        s1.frame_last_pts = (demo_player_with AV_NOPTS_VALUE 1 1).frame_last_pts +
          (demo_player_with AV_NOPTS_VALUE 1 1).frame_last_delay :=
  ⟨rfl, rfl,
    C20_unknown_timestamp_extrapolates (demo_player_with AV_NOPTS_VALUE 1 1) FrameQueue.new
      (demo_frame AV_NOPTS_VALUE) 0 0 rfl rfl⟩

end PacingClaimsLoop

/-! ## The audio callback -/

section AudioClaims

open VideoPlayer

/-- The refill in one piece: the two stores of `refill_audio_buf` after the
call of `resample_audio_frame`. -/
theorem refill_audio_buf_eq (s : VideoPlayer) (swr : AVFrame → SwrResult) :
    refill_audio_buf s swr =
      match resample_audio_frame s swr with
      | Outcome.done (s1, audio_size) =>
        Outcome.done
          { (if audio_size < 0 then
              { s1 with
                audio_buf_size := 1024
                audio_buf := List.replicate 1024 0 ++ s1.audio_buf.drop 1024 }
            else
              { s1 with audio_buf_size := unsigned_of_int audio_size }) with
            audio_buf_index := 0 }
      | Outcome.waits => Outcome.waits
      | Outcome.fault => Outcome.fault
      | Outcome.unfinished => Outcome.unfinished := by
  unfold refill_audio_buf refill_size_stored
  cases resample_audio_frame s swr with
  | waits => rfl
  | fault => rfl
  | unfinished => rfl
  | done r =>
    obtain ⟨s1, a⟩ := r
    by_cases ha : a < 0
    · simp only [if_pos ha]
    · simp only [if_neg ha]

/-- A completed refill is the store of `audio_buf_size` followed by the store
of `audio_buf_index`. -/
theorem refill_of_size_stored (s s0 : VideoPlayer) (swr : AVFrame → SwrResult)
    (h : refill_audio_buf s swr = Outcome.done s0) :
    ∃ s2, refill_size_stored s swr = Outcome.done s2 ∧
      s0 = { s2 with audio_buf_index := 0 } := by
  unfold refill_audio_buf at h
  cases hr : refill_size_stored s swr with
  | waits => rw [hr] at h; cases h
  | fault => rw [hr] at h; cases h
  | unfinished => rw [hr] at h; cases h
  | done s2 =>
    rw [hr] at h
    simp only [Outcome.done.injEq] at h
    exact ⟨s2, rfl, h.symm⟩

theorem refill_of_null_pop (s : VideoPlayer) (q : FrameQueue) (swr : AVFrame → SwrResult)
    (hpop : s.audio_frame_q.pop = some (q, none)) :
    refill_audio_buf s swr =
      Outcome.done { s with
        audio_frame_q := q
        audio_buf_size := 1024
        audio_buf := List.replicate 1024 0 ++ s.audio_buf.drop 1024
        audio_buf_index := 0 } := by
  rw [refill_audio_buf_eq]
  unfold resample_audio_frame
  rw [hpop]
  rfl

theorem refill_of_wait (s : VideoPlayer) (swr : AVFrame → SwrResult)
    (hpop : s.audio_frame_q.pop = none) :
    refill_audio_buf s swr = Outcome.waits := by
  rw [refill_audio_buf_eq]
  unfold resample_audio_frame
  rw [hpop]

/-- C15, as stated, fails: when the buffer must be refilled and the audio
frame queue is empty and not aborted, the callback waits in
`audio_frame_q.pop()`. This is so at the first callback of the example player
(nothing decoded yet), and in the second iteration of a callback that found
only the end-of-stream sentinel: the first iteration consumes the sentinel
and mixes 1024 bytes of silence, the second waits. -/
theorem C15_callback_waits_on_empty_queue_counterexample :
    demo_player.quit = false ∧
      demo_player.audio_buf_index ≥ demo_player.audio_buf_size ∧
      demo_player.audio_frame_q.queue = [] ∧
      demo_player.audio_frame_q.quit = false ∧
      audio_callback_iter demo_player 4096 demo_swr = Outcome.waits ∧
      audio_callback 10 demo_player 4096 demo_swr = Outcome.waits ∧
      audio_callback 10 demo_player_audio_end 4096 demo_swr = Outcome.waits :=
  ⟨rfl, by decide, rfl, rfl, rfl, rfl, rfl⟩

theorem unsigned_of_int_eq (z : Int) (h0 : 0 ≤ z) (h1 : z < 2 ^ 32) :
    unsigned_of_int z = z.toNat := by
  unfold unsigned_of_int
  rw [Int.emod_eq_of_lt h0 h1]

theorem take_silence (k : Nat) (rest : List Nat) (hk : k ≤ 1024) :
    ((List.replicate 1024 0 ++ rest).drop 0).take k = List.replicate k 0 := by
  rw [List.drop_zero,
    List.take_append_of_le_length (by rw [List.length_replicate]; exact hk),
    List.take_replicate, Nat.min_eq_left hk]

/-- C15, amended: whenever an iteration of the audio feed callback needs to
refill its buffer (`audio_buf_index >= audio_buf_size`) and
`audio_frame_q.pop()` returns null (it dequeues the end-of-stream sentinel, or
the queue is aborted and empty), the iteration completes without waiting: it
substitutes a 1024-byte zero-filled buffer with index 0 and goes on filling
the request, mixing `min(1024, len)` zero bytes into the stream and
advancing index and `len` by that count. -/
theorem C15_silence_on_null_pop (s : VideoPlayer) (q : FrameQueue) (len : Int)
    (swr : AVFrame → SwrResult)
    (hquit : s.quit = false) (hneed : s.audio_buf_index ≥ s.audio_buf_size)
    (hpop : s.audio_frame_q.pop = some (q, none))
    (hlen0 : 0 < len) (hlen1 : len < 2 ^ 31) :
    (∃ s0, refill_audio_buf s swr = Outcome.done s0 ∧
        s0.audio_buf_size = 1024 ∧ s0.audio_buf_index = 0 ∧
        s0.audio_buf.take 1024 = List.replicate 1024 0) ∧
      ∃ s1, audio_callback_iter s len swr =
          Outcome.done (some (s1, len - min 1024 len,
            List.replicate (min 1024 len).toNat 0)) ∧
        s1.audio_buf_size = 1024 ∧
        s1.audio_buf_index = (min 1024 len).toNat ∧
        s1.audio_buf.take 1024 = List.replicate 1024 0 := by
  have hzero : ∀ rest : List Nat,
      (List.replicate 1024 0 ++ rest).take 1024 = List.replicate 1024 0 := by
    intro rest
    have := take_silence 1024 rest (le_refl _)
    rwa [List.drop_zero] at this
  have hsub : int_of_unsigned (unsigned_sub 1024 0) = 1024 := by decide
  refine ⟨⟨_, refill_of_null_pop s q swr hpop, rfl, rfl, hzero _⟩, ?_⟩
  have hq : ¬ s.quit = true := by simp [hquit]
  unfold audio_callback_iter
  rw [if_neg hq, if_pos hneed, refill_of_null_pop s q swr hpop]
  simp only [hsub, Nat.cast_zero, zero_add]
  by_cases hc : (1024 : Int) > len
  · have hmin : min (1024 : Int) len = len := min_eq_right (le_of_lt hc)
    have hn : len.toNat ≤ 1024 := by omega
    rw [if_pos hc, hmin, unsigned_of_int_eq len (le_of_lt hlen0) (by omega),
      take_silence _ _ hn, int_wrap_eq (len - len) (by omega) (by omega)]
    exact ⟨_, rfl, rfl, rfl, hzero _⟩
  · have hmin : min (1024 : Int) len = 1024 := min_eq_left (not_lt.mp hc)
    rw [if_neg hc, hmin, unsigned_of_int_eq 1024 (by norm_num) (by norm_num),
      take_silence _ _ (by decide), int_wrap_eq (len - 1024) (by omega) (by omega)]
    exact ⟨_, rfl, rfl, rfl, hzero _⟩

/-- A witness of the amended C15: a request of 4096 bytes when only the
end-of-stream sentinel is in the audio frame queue. -/
theorem C15_silence_on_null_pop_witness :
    (∃ s0, refill_audio_buf demo_player_audio_end demo_swr = Outcome.done s0 ∧
        s0.audio_buf_size = 1024 ∧ s0.audio_buf_index = 0 ∧
        s0.audio_buf.take 1024 = List.replicate 1024 0) ∧
      ∃ s1, audio_callback_iter demo_player_audio_end 4096 demo_swr =
          Outcome.done (some (s1, 4096 - min 1024 4096,
            List.replicate (min (1024 : Int) 4096).toNat 0)) ∧
        s1.audio_buf_size = 1024 ∧
        s1.audio_buf_index = (min (1024 : Int) 4096).toNat ∧
        s1.audio_buf.take 1024 = List.replicate 1024 0 :=
  C15_silence_on_null_pop demo_player_audio_end FrameQueue.new 4096 demo_swr rfl
    (by decide) rfl (by decide) (by decide)

end AudioClaims

/-! ## The demux and decode tasks -/

section TaskLemmas

theorem video_pushes_append (a b : List DemuxAction) :
    video_pushes (a ++ b) = video_pushes a ++ video_pushes b := by
  induction a with
  | nil => rfl
  | cons act rest ih => cases act <;> simp [video_pushes, ih]

theorem audio_pushes_append (a b : List DemuxAction) :
    audio_pushes (a ++ b) = audio_pushes a ++ audio_pushes b := by
  induction a with
  | nil => rfl
  | cons act rest ih => cases act <;> simp [audio_pushes, ih]

theorem frame_pushes_append (a b : List DecodeAction) :
    frame_pushes (a ++ b) = frame_pushes a ++ frame_pushes b := by
  induction a with
  | nil => rfl
  | cons act rest ih => cases act <;> simp [frame_pushes, ih]

theorem video_pushes_route (v a : Int) (p : AVPacket) :
    video_pushes [route_packet v a p] = if p.stream_index = v then [some p] else [] := by
  unfold route_packet
  by_cases h1 : p.stream_index = v
  · rw [if_pos h1, if_pos h1]
    rfl
  · by_cases h2 : p.stream_index = a
    · rw [if_neg h1, if_pos h2, if_neg h1]
      rfl
    · rw [if_neg h1, if_neg h2, if_neg h1]
      rfl

theorem audio_pushes_route (v a : Int) (p : AVPacket) :
    audio_pushes [route_packet v a p] =
      if p.stream_index ≠ v ∧ p.stream_index = a then [some p] else [] := by
  unfold route_packet
  by_cases h1 : p.stream_index = v
  · rw [if_pos h1, if_neg (fun h => h.1 h1)]
    rfl
  · by_cases h2 : p.stream_index = a
    · rw [if_neg h1, if_pos h2, if_pos ⟨h1, h2⟩]
      rfl
    · rw [if_neg h1, if_neg h2, if_neg (fun h => h2 h.2)]
      rfl

theorem demux_loop_cons (v a : Int) (st : DemuxStep) (rest : List DemuxStep) :
    demux_loop v a (st :: rest) =
      if st.quit = true then []
      else if backpressure a st = true then DemuxAction.sleep_for 10 :: demux_loop v a rest
      else
        match st.read with
        | none => [DemuxAction.av_packet_free_unread]
        | some packet => route_packet v a packet :: demux_loop v a rest := rfl

theorem packets_read_cons (a : Int) (st : DemuxStep) (rest : List DemuxStep) :
    packets_read a (st :: rest) =
      if st.quit = true then []
      else if backpressure a st = true then packets_read a rest
      else
        match st.read with
        | none => []
        | some packet => packet :: packets_read a rest := rfl

/-- The pushes onto the video packet queue made inside the loop are the
packets read whose stream index is `video_stream_index`, in order. -/
theorem video_pushes_demux_loop (v a : Int) (steps : List DemuxStep) :
    video_pushes (demux_loop v a steps) =
      ((packets_read a steps).filter (fun p => decide (p.stream_index = v))).map some := by
  induction steps with
  | nil => rfl
  | cons st rest ih =>
    rw [demux_loop_cons, packets_read_cons]
    by_cases hq : st.quit = true
    · rw [if_pos hq, if_pos hq]
      rfl
    · rw [if_neg hq, if_neg hq]
      by_cases hb : backpressure a st = true
      · rw [if_pos hb, if_pos hb, ← ih]
        rfl
      · rw [if_neg hb, if_neg hb]
        cases hr : st.read with
        | none => rfl
        | some packet =>
          simp only []
          rw [← List.singleton_append, video_pushes_append, video_pushes_route, ih,
            List.filter_cons]
          by_cases h1 : packet.stream_index = v
          · simp [h1]
          · simp [h1]

/-- The pushes onto the audio packet queue made inside the loop are the
packets read whose stream index is `audio_stream_index` and not
`video_stream_index`, in order. -/
theorem audio_pushes_demux_loop (v a : Int) (steps : List DemuxStep) :
    audio_pushes (demux_loop v a steps) =
      ((packets_read a steps).filter
        (fun p => decide (p.stream_index ≠ v ∧ p.stream_index = a))).map some := by
  induction steps with
  | nil => rfl
  | cons st rest ih =>
    rw [demux_loop_cons, packets_read_cons]
    by_cases hq : st.quit = true
    · rw [if_pos hq, if_pos hq]
      rfl
    · rw [if_neg hq, if_neg hq]
      by_cases hb : backpressure a st = true
      · rw [if_pos hb, if_pos hb, ← ih]
        rfl
      · rw [if_neg hb, if_neg hb]
        cases hr : st.read with
        | none => rfl
        | some packet =>
          simp only []
          rw [← List.singleton_append, audio_pushes_append, audio_pushes_route, ih,
            List.filter_cons]
          by_cases h1 : packet.stream_index ≠ v ∧ packet.stream_index = a
          · rw [if_pos h1, if_pos (show (fun p : AVPacket =>
              decide (p.stream_index ≠ v ∧ p.stream_index = a)) packet = true from
              decide_eq_true h1)]
            rfl
          · simp [h1]

theorem count_none_map_some {β : Type} [DecidableEq β] (l : List β) :
    (l.map some).count none = 0 := by
  induction l with
  | nil => rfl
  | cons x rest ih => simp [List.count_cons, ih]

theorem route_mem_demux_loop (v a : Int) (steps : List DemuxStep) (p : AVPacket)
    (h : p ∈ packets_read a steps) : route_packet v a p ∈ demux_loop v a steps := by
  induction steps with
  | nil => simp [packets_read] at h
  | cons st rest ih =>
    rw [packets_read_cons] at h
    rw [demux_loop_cons]
    by_cases hq : st.quit = true
    · rw [if_pos hq] at h
      simp at h
    · rw [if_neg hq] at h ⊢
      by_cases hb : backpressure a st = true
      · rw [if_pos hb] at h ⊢
        exact List.mem_cons_of_mem _ (ih h)
      · rw [if_neg hb] at h ⊢
        cases hr : st.read with
        | none => simp [hr] at h
        | some packet =>
          simp only [hr, List.mem_cons] at h ⊢
          rcases h with rfl | h
          · exact Or.inl rfl
          · exact Or.inr (ih h)

theorem mem_demux_loop (v a : Int) (steps : List DemuxStep) (act : DemuxAction)
    (h : act ∈ demux_loop v a steps) :
    act = DemuxAction.sleep_for 10 ∨ act = DemuxAction.av_packet_free_unread ∨
      ∃ p, p ∈ packets_read a steps ∧ act = route_packet v a p := by
  induction steps with
  | nil => simp [demux_loop] at h
  | cons st rest ih =>
    rw [demux_loop_cons] at h
    rw [packets_read_cons]
    by_cases hq : st.quit = true
    · rw [if_pos hq] at h
      simp at h
    · rw [if_neg hq] at h ⊢
      by_cases hb : backpressure a st = true
      · rw [if_pos hb] at h ⊢
        rcases List.mem_cons.mp h with rfl | h
        · exact Or.inl rfl
        · exact ih h
      · rw [if_neg hb] at h ⊢
        cases hr : st.read with
        | none =>
          simp only [hr, List.mem_singleton] at h
          exact Or.inr (Or.inl h)
        | some packet =>
          simp only [hr] at h ⊢
          rcases List.mem_cons.mp h with rfl | h
          · exact Or.inr (Or.inr ⟨packet, List.mem_cons_self _ _, rfl⟩)
          · rcases ih h with h1 | h1 | ⟨p, hp, rfl⟩
            · exact Or.inl h1
            · exact Or.inr (Or.inl h1)
            · exact Or.inr (Or.inr ⟨p, List.mem_cons_of_mem _ hp, rfl⟩)

/-- An action of `demux_thread_entry` that names a packet comes from the
routing of a packet read. -/
theorem mem_demux_thread_entry (s : VideoPlayer) (steps : List DemuxStep) (act : DemuxAction)
    (h : act ∈ s.demux_thread_entry steps)
    (hv : act ≠ DemuxAction.push_video none) (ha : act ≠ DemuxAction.push_audio none)
    (hs : act ≠ DemuxAction.sleep_for 10) (hu : act ≠ DemuxAction.av_packet_free_unread) :
    ∃ p, p ∈ packets_read s.audio_stream_index steps ∧
      act = route_packet s.video_stream_index s.audio_stream_index p := by
  unfold VideoPlayer.demux_thread_entry at h
  rw [List.mem_append, List.mem_append] at h
  rcases h with (h | h) | h
  · rcases mem_demux_loop _ _ steps act h with h1 | h1 | h1
    · exact absurd h1 hs
    · exact absurd h1 hu
    · exact h1
  · exact absurd (List.mem_singleton.mp h) hv
  · by_cases hidx : s.audio_stream_index ≠ -1
    · rw [if_pos hidx] at h
      exact absurd (List.mem_singleton.mp h) ha
    · rw [if_neg hidx] at h
      simp at h

theorem frame_pushes_decode_thread_entry (frame : AVFrame) (steps : List DecodeStep)
    (drained : List Received) :
    frame_pushes (decode_thread_entry (some frame) steps drained) =
      frame_pushes (decode_loop steps) ++ frame_pushes (drain_loop drained) ++ [none] := by
  unfold decode_thread_entry
  simp only [frame_pushes_append]
  simp [frame_pushes]

end TaskLemmas

section TaskClaims

/-- C16: a decode task whose `av_frame_alloc()` returns null logs the failure
and returns: it pushes nothing onto its frame queue, so no sentinel. And
when `av_frame_clone` returns null for a decoded frame, the task pushes that
null as well as the final one: here a run with one packet, one decoded frame
whose clone fails, and then the sentinel packet, pushes two nulls. -/
theorem C16_decode_task_sentinel_evaluation (steps : List DecodeStep)
    (drained : List Received) :
    video_decode_thread_entry none steps drained = [DecodeAction.log_alloc_failure] ∧
      frame_pushes (video_decode_thread_entry none steps drained) = [] ∧
      frame_pushes (audio_decode_thread_entry none steps drained) = [] ∧
      frame_pushes (video_decode_thread_entry (some (demo_frame 0))
          [{ quit := false, pkt := some { stream_index := 0, ident := 1 }, send_ret := 0,
             received := [{ ret := 0, clone := none }, { ret := AVERROR_EAGAIN, clone := none }] },
           { quit := false, pkt := none, send_ret := 0, received := [] }]
          []) = [none, none] :=
  ⟨rfl, rfl, rfl, rfl⟩

/-- C17: whatever the run of the loop of `demux_thread_entry` (ended by the
end of the input or by `quit`), the pushes onto the video packet queue are
the packets routed to it, in order, followed by one null; the pushes onto
the audio packet queue are the packets routed to it, in order, followed by
one null when `audio_stream_index != -1` and by nothing otherwise. So the
null is pushed exactly once on the video queue, and on the audio queue
exactly once if an audio stream was selected and never if not. -/
theorem C17_demux_sentinels (s : VideoPlayer) (steps : List DemuxStep) :
    video_pushes (s.demux_thread_entry steps) =
        ((packets_read s.audio_stream_index steps).filter
          (fun p => decide (p.stream_index = s.video_stream_index))).map some ++ [none] ∧
      audio_pushes (s.demux_thread_entry steps) =
        ((packets_read s.audio_stream_index steps).filter
          (fun p => decide (p.stream_index ≠ s.video_stream_index ∧
            p.stream_index = s.audio_stream_index))).map some ++
          (if s.audio_stream_index ≠ -1 then [none] else []) ∧
      (video_pushes (s.demux_thread_entry steps)).count none = 1 ∧
      (audio_pushes (s.demux_thread_entry steps)).count none =
        (if s.audio_stream_index ≠ -1 then 1 else 0) := by
  have hv : video_pushes (s.demux_thread_entry steps) =
      ((packets_read s.audio_stream_index steps).filter
        (fun p => decide (p.stream_index = s.video_stream_index))).map some ++ [none] := by
    unfold VideoPlayer.demux_thread_entry
    rw [video_pushes_append, video_pushes_append, video_pushes_demux_loop]
    by_cases hidx : s.audio_stream_index ≠ -1
    · rw [if_pos hidx]
      simp [video_pushes]
    · rw [if_neg hidx]
      simp [video_pushes]
  have ha : audio_pushes (s.demux_thread_entry steps) =
      ((packets_read s.audio_stream_index steps).filter
        (fun p => decide (p.stream_index ≠ s.video_stream_index ∧
          p.stream_index = s.audio_stream_index))).map some ++
        (if s.audio_stream_index ≠ -1 then [none] else []) := by
    unfold VideoPlayer.demux_thread_entry
    rw [audio_pushes_append, audio_pushes_append, audio_pushes_demux_loop]
    by_cases hidx : s.audio_stream_index ≠ -1
    · rw [if_pos hidx, if_pos hidx]
      simp [audio_pushes]
    · rw [if_neg hidx, if_neg hidx]
      simp [audio_pushes]
  refine ⟨hv, ha, ?_, ?_⟩
  · rw [hv, List.count_append, count_none_map_some]
    rfl
  · rw [ha, List.count_append, count_none_map_some]
    by_cases hidx : s.audio_stream_index ≠ -1
    · rw [if_pos hidx, if_pos hidx]
      rfl
    · rw [if_neg hidx, if_neg hidx]
      rfl

/-- C18: each packet that the demux task reads is routed by its stream
index: pushed onto the video packet queue when the index is
`video_stream_index`, else onto the audio packet queue when it is
`audio_stream_index`, else freed; and a packet is pushed onto a queue, or
freed, only in these cases, so a packet goes to at most one place. With
`audio_stream_index == -1`, and packets whose stream index is not negative
(they index a stream of the file), nothing is pushed onto the audio packet
queue. -/
theorem C18_demux_routing (s : VideoPlayer) (steps : List DemuxStep) :
    (∀ p ∈ packets_read s.audio_stream_index steps,
        (p.stream_index = s.video_stream_index →
          DemuxAction.push_video (some p) ∈ s.demux_thread_entry steps) ∧
        (p.stream_index ≠ s.video_stream_index → p.stream_index = s.audio_stream_index →
          DemuxAction.push_audio (some p) ∈ s.demux_thread_entry steps) ∧
        (p.stream_index ≠ s.video_stream_index → p.stream_index ≠ s.audio_stream_index →
          DemuxAction.av_packet_free p ∈ s.demux_thread_entry steps)) ∧
      (∀ p, DemuxAction.push_video (some p) ∈ s.demux_thread_entry steps →
        p ∈ packets_read s.audio_stream_index steps ∧
          p.stream_index = s.video_stream_index) ∧
      (∀ p, DemuxAction.push_audio (some p) ∈ s.demux_thread_entry steps →
        p ∈ packets_read s.audio_stream_index steps ∧
          p.stream_index ≠ s.video_stream_index ∧ p.stream_index = s.audio_stream_index) ∧
      (∀ p, DemuxAction.av_packet_free p ∈ s.demux_thread_entry steps →
        p ∈ packets_read s.audio_stream_index steps ∧
          p.stream_index ≠ s.video_stream_index ∧ p.stream_index ≠ s.audio_stream_index) ∧
      (s.audio_stream_index = -1 →
        (∀ p ∈ packets_read s.audio_stream_index steps, 0 ≤ p.stream_index) →
        audio_pushes (s.demux_thread_entry steps) = []) := by
  have hloop : ∀ act, act ∈ demux_loop s.video_stream_index s.audio_stream_index steps →
      act ∈ s.demux_thread_entry steps := by
    intro act h
    unfold VideoPlayer.demux_thread_entry
    exact List.mem_append_left _ (List.mem_append_left _ h)
  refine ⟨?_, ?_, ?_, ?_, ?_⟩
  · intro p hp
    have hr := hloop _ (route_mem_demux_loop s.video_stream_index s.audio_stream_index steps p hp)
    unfold route_packet at hr
    refine ⟨?_, ?_, ?_⟩
    · intro h1
      rwa [if_pos h1] at hr
    · intro h1 h2
      rwa [if_neg h1, if_pos h2] at hr
    · intro h1 h2
      rwa [if_neg h1, if_neg h2] at hr
  · intro p h
    obtain ⟨p1, hp1, he⟩ := mem_demux_thread_entry s steps _ h (by simp) (by simp) (by simp)
      (by simp)
    unfold route_packet at he
    by_cases h1 : p1.stream_index = s.video_stream_index
    · rw [if_pos h1] at he
      simp only [DemuxAction.push_video.injEq, Option.some.injEq] at he
      subst he
      exact ⟨hp1, h1⟩
    · by_cases h2 : p1.stream_index = s.audio_stream_index
      · rw [if_neg h1, if_pos h2] at he
        simp at he
      · rw [if_neg h1, if_neg h2] at he
        simp at he
  · intro p h
    obtain ⟨p1, hp1, he⟩ := mem_demux_thread_entry s steps _ h (by simp) (by simp) (by simp)
      (by simp)
    unfold route_packet at he
    by_cases h1 : p1.stream_index = s.video_stream_index
    · rw [if_pos h1] at he
      simp at he
    · by_cases h2 : p1.stream_index = s.audio_stream_index
      · rw [if_neg h1, if_pos h2] at he
        simp only [DemuxAction.push_audio.injEq, Option.some.injEq] at he
        subst he
        exact ⟨hp1, h1, h2⟩
      · rw [if_neg h1, if_neg h2] at he
        simp at he
  · intro p h
    obtain ⟨p1, hp1, he⟩ := mem_demux_thread_entry s steps _ h (by simp) (by simp) (by simp)
      (by simp)
    unfold route_packet at he
    by_cases h1 : p1.stream_index = s.video_stream_index
    · rw [if_pos h1] at he
      simp at he
    · by_cases h2 : p1.stream_index = s.audio_stream_index
      · rw [if_neg h1, if_pos h2] at he
        simp at he
      · rw [if_neg h1, if_neg h2] at he
        simp only [DemuxAction.av_packet_free.injEq] at he
        subst he
        exact ⟨hp1, h1, h2⟩
  · intro hidx hnonneg
    unfold VideoPlayer.demux_thread_entry
    rw [audio_pushes_append, audio_pushes_append, audio_pushes_demux_loop,
      if_neg (by simp [hidx])]
    have hf : (packets_read s.audio_stream_index steps).filter
        (fun p => decide (p.stream_index ≠ s.video_stream_index ∧
          p.stream_index = s.audio_stream_index)) = [] := by
      rw [List.filter_eq_nil_iff]
      intro p hp
      have h0 := hnonneg p hp
      simp only [decide_eq_true_eq, not_and]
      intro _ h2
      rw [hidx] at h2
      omega
    rw [hf]
    rfl

/-- A witness of C18: the packet of stream 1 in the example run, with audio
stream 1 selected; and the same run on a player without audio stream. -/
theorem C18_demux_routing_witness :
    (AVPacket.mk 1 2 ∈ packets_read demo_player.audio_stream_index demo_demux_steps) ∧
      (((AVPacket.mk 1 2).stream_index = demo_player.video_stream_index →
          DemuxAction.push_video (some (AVPacket.mk 1 2)) ∈
            demo_player.demux_thread_entry demo_demux_steps) ∧
        ((AVPacket.mk 1 2).stream_index ≠ demo_player.video_stream_index →
          (AVPacket.mk 1 2).stream_index = demo_player.audio_stream_index →
          DemuxAction.push_audio (some (AVPacket.mk 1 2)) ∈
            demo_player.demux_thread_entry demo_demux_steps) ∧
        ((AVPacket.mk 1 2).stream_index ≠ demo_player.video_stream_index →
          (AVPacket.mk 1 2).stream_index ≠ demo_player.audio_stream_index →
          DemuxAction.av_packet_free (AVPacket.mk 1 2) ∈
            demo_player.demux_thread_entry demo_demux_steps)) ∧
      (∀ p ∈ packets_read demo_player_no_audio.audio_stream_index demo_demux_steps,
        0 ≤ p.stream_index) ∧
      audio_pushes (demo_player_no_audio.demux_thread_entry demo_demux_steps) = [] :=
  ⟨by decide,
    (C18_demux_routing demo_player demo_demux_steps).1 (AVPacket.mk 1 2) (by decide),
    by decide,
    (C18_demux_routing demo_player_no_audio demo_demux_steps).2.2.2.2 rfl (by decide)⟩

end TaskClaims

/-! ## The pacing claims: the stored values and the wall clock -/

section PacingClaimsStored

open VideoPlayer

/-- The frame delay is never negative. -/
theorem frame_delay_of_nonneg (s : VideoPlayer) (video_pts : ℚ) :
    0 ≤ frame_delay_of s video_pts := by
  by_cases hc : 0 < video_pts - s.frame_last_pts ∧ video_pts - s.frame_last_pts ≤ 1
  · rw [frame_delay_of_keep s video_pts hc]
    exact le_of_lt hc.1
  · by_cases hden : s.video_stream.avg_frame_rate.den = 0
    · by_cases hnum : 0 < s.video_stream.avg_frame_rate.num
      · rw [frame_delay_of_override_pos_inf s video_pts hc hden hnum]
      · rw [frame_delay_of_override_not_pos s video_pts hc hden (not_lt.mp hnum)]
        norm_num
    · rw [frame_delay_of_override_finite s video_pts hc hden]
      by_cases hf : av_q2d s.video_stream.avg_frame_rate > 0
      · rw [if_pos hf]
        exact le_of_lt (one_div_pos.mpr hf)
      · rw [if_neg hf]
        norm_num

/-- The frame delay is positive when the difference is kept, and when the
frame rate is not `n/0` with `n > 0`. -/
theorem frame_delay_of_pos (s : VideoPlayer) (video_pts : ℚ)
    (h : (0 < video_pts - s.frame_last_pts ∧ video_pts - s.frame_last_pts ≤ 1) ∨
      ¬ (s.video_stream.avg_frame_rate.den = 0 ∧ 0 < s.video_stream.avg_frame_rate.num)) :
    0 < frame_delay_of s video_pts := by
  by_cases hc : 0 < video_pts - s.frame_last_pts ∧ video_pts - s.frame_last_pts ≤ 1
  · rw [frame_delay_of_keep s video_pts hc]
    exact hc.1
  · have hrate := h.resolve_left hc
    by_cases hden : s.video_stream.avg_frame_rate.den = 0
    · have hnum : s.video_stream.avg_frame_rate.num ≤ 0 :=
        not_lt.mp (fun hn => hrate ⟨hden, hn⟩)
      rw [frame_delay_of_override_not_pos s video_pts hc hden hnum]
      norm_num
    · rw [frame_delay_of_override_finite s video_pts hc hden]
      by_cases hf : av_q2d s.video_stream.avg_frame_rate > 0
      · rw [if_pos hf]
        exact one_div_pos.mpr hf
      · rw [if_neg hf]
        norm_num

/-- C21, as stated, fails: `frame_last_delay` is not strictly positive after
every call that pops a frame. With `avg_frame_rate = 25/0` the `fps` of the
override is `+inf`; at `frame_last_pts = 10.0` and `video_pts = 9.0` the
difference is negative, the override takes `fps > 0` and stores
`1.0 / fps = 0` in `frame_last_delay`. -/
theorem C21_frame_last_delay_zero_counterexample :
    demo_player_inf_fps.video_frame_q.pop = some (FrameQueue.new, some (demo_frame 9000)) ∧
      av_q2d_ieee demo_player_inf_fps.video_stream.avg_frame_rate = Double.pos_inf ∧
      video_pts_of demo_player_inf_fps (demo_frame 9000) = 9 ∧
      ∃ s1 events, demo_player_inf_fps.render_video_frame 0 0 = some (s1, events) ∧
        s1.frame_last_pts = 9 ∧
        s1.frame_last_delay = 0 ∧
        ¬ (0 < s1.frame_last_delay) := by
  have hv : video_pts_of demo_player_inf_fps (demo_frame 9000) = 9 := by
    norm_num [video_pts_of, demo_player_inf_fps, demo_player_with, demo_player, demo_frame,
      av_q2d, AV_NOPTS_VALUE]
  have hl := render_frame_last { demo_player_inf_fps with video_frame_q := FrameQueue.new }
    (demo_frame 9000) 0 0
  have hv1 : video_pts_of { demo_player_inf_fps with video_frame_q := FrameQueue.new }
      (demo_frame 9000) = 9 := hv
  have hfd : frame_delay_of demo_player_inf_fps 9 = 0 :=
    frame_delay_of_override_pos_inf _ 9
      (by norm_num [demo_player_inf_fps, demo_player_with, demo_player]) rfl (by decide)
  have hd : (render_frame { demo_player_inf_fps with video_frame_q := FrameQueue.new }
      (demo_frame 9000) 0 0).1.frame_last_delay = 0 :=
    hl.1.trans ((congrArg (frame_delay_of demo_player_inf_fps) hv).trans hfd)
  exact ⟨rfl, rfl, hv, _, _,
    render_of_pop demo_player_inf_fps FrameQueue.new (demo_frame 9000) 0 0 rfl,
    hl.2.trans hv1, hd, not_lt.mpr (le_of_eq hd)⟩

/-- C21, amended: after every call of `render_video_frame` that pops a frame,
whether the frame is then dropped or presented, `frame_last_pts` is the
`video_pts` computed in the call and `frame_last_delay` is the `frame_delay`
used in the call, after the override. That value is never negative. It is
positive when the difference lies in `(0, 1.0]` (the difference is kept) and
when `avg_frame_rate` is not `n/0` with `n > 0` (the override gives `1 / fps`
with a finite `fps > 0`, or `0.040`); when the override is taken with
`avg_frame_rate = n/0`, `n > 0`, it is `1.0 / +inf = 0`. -/
theorem C21_last_values_stored (s : VideoPlayer) (q : FrameQueue) (frame : AVFrame)
    (clock_now delay_now : Int)
    (hpop : s.video_frame_q.pop = some (q, some frame)) :
    ∃ s1 events, s.render_video_frame clock_now delay_now = some (s1, events) ∧
      s1.frame_last_pts = video_pts_of s frame ∧
      s1.frame_last_delay = frame_delay_of s (video_pts_of s frame) ∧
      0 ≤ s1.frame_last_delay ∧
      ((0 < video_pts_of s frame - s.frame_last_pts ∧
            video_pts_of s frame - s.frame_last_pts ≤ 1) ∨
          ¬ (s.video_stream.avg_frame_rate.den = 0 ∧ 0 < s.video_stream.avg_frame_rate.num) →
        0 < s1.frame_last_delay) ∧
      (¬ (0 < video_pts_of s frame - s.frame_last_pts ∧
            video_pts_of s frame - s.frame_last_pts ≤ 1) →
        s.video_stream.avg_frame_rate.den = 0 → 0 < s.video_stream.avg_frame_rate.num →
        s1.frame_last_delay = 0) ∧
      (diff_of s frame clock_now < -1 →
        events = [Event.log_drop (diff_of s frame clock_now), Event.av_frame_free frame]) := by
  have hl := render_frame_last { s with video_frame_q := q } frame clock_now delay_now
  have hd : (render_frame { s with video_frame_q := q } frame clock_now
      delay_now).1.frame_last_delay = frame_delay_of s (video_pts_of s frame) := hl.1
  have hnonneg : 0 ≤ (render_frame { s with video_frame_q := q } frame clock_now
      delay_now).1.frame_last_delay := by
    rw [hd]
    exact frame_delay_of_nonneg _ _
  have hpos : (0 < video_pts_of s frame - s.frame_last_pts ∧
        video_pts_of s frame - s.frame_last_pts ≤ 1) ∨
        ¬ (s.video_stream.avg_frame_rate.den = 0 ∧ 0 < s.video_stream.avg_frame_rate.num) →
      0 < (render_frame { s with video_frame_q := q } frame clock_now
        delay_now).1.frame_last_delay := by
    intro h
    rw [hd]
    exact frame_delay_of_pos s _ h
  have hzero : ¬ (0 < video_pts_of s frame - s.frame_last_pts ∧
        video_pts_of s frame - s.frame_last_pts ≤ 1) →
      s.video_stream.avg_frame_rate.den = 0 → 0 < s.video_stream.avg_frame_rate.num →
      (render_frame { s with video_frame_q := q } frame clock_now
        delay_now).1.frame_last_delay = 0 := by
    intro hc hden hnum
    rw [hd]
    exact frame_delay_of_override_pos_inf s _ hc hden hnum
  have hdrop : diff_of s frame clock_now < -1 →
      (render_frame { s with video_frame_q := q } frame clock_now delay_now).2 =
        [Event.log_drop (diff_of s frame clock_now), Event.av_frame_free frame] := by
    intro hdiff
    have hd : diff_of { s with video_frame_q := q } frame clock_now < -1 := hdiff
    rw [render_frame_drop _ frame clock_now delay_now hd]
    rfl
  exact ⟨_, _, render_of_pop s q frame clock_now delay_now hpop, hl.2, hl.1, hnonneg, hpos,
    hzero, hdrop⟩

/-- A witness of C21: the dropped frame of the hard drop example, at 25 fps;
the stored delay is positive and the events are those of a drop. -/
theorem C21_last_values_stored_witness :
    (demo_player_with 5000 (13 / 2) (124 / 25)).video_frame_q.pop =
        some (FrameQueue.new, some (demo_frame 5000)) ∧
      ∃ s1 events, (demo_player_with 5000 (13 / 2) (124 / 25)).render_video_frame 0 0 =
          some (s1, events) ∧
        s1.frame_last_pts =
          video_pts_of (demo_player_with 5000 (13 / 2) (124 / 25)) (demo_frame 5000) ∧
        s1.frame_last_delay = frame_delay_of (demo_player_with 5000 (13 / 2) (124 / 25))
          (video_pts_of (demo_player_with 5000 (13 / 2) (124 / 25)) (demo_frame 5000)) ∧
        0 ≤ s1.frame_last_delay ∧
        0 < s1.frame_last_delay ∧
        events = [Event.log_drop
            (diff_of (demo_player_with 5000 (13 / 2) (124 / 25)) (demo_frame 5000) 0),
          Event.av_frame_free (demo_frame 5000)] := by
  obtain ⟨s1, events, h1, h2, h3, h4, h5, _, h7⟩ :=
    C21_last_values_stored (demo_player_with 5000 (13 / 2) (124 / 25)) FrameQueue.new
      (demo_frame 5000) 0 0 rfl
  exact ⟨rfl, s1, events, h1, h2, h3, h4, h5 (Or.inr (by decide)),
    h7 (by norm_num [diff_of, video_pts_of, get_audio_clock, demo_player_with, demo_player,
      demo_frame, demo_video_stream, av_q2d, AV_NOPTS_VALUE, int_of_unsigned, unsigned_sub,
      int_wrap, av_get_bytes_per_sample_S16])⟩

/-- C22: with `audio_stream_index == -1`, `render_video_frame` drops every
popped frame for which the reading of `av_gettime()` in seconds exceeds
`video_pts + 1.0`: then `diff = video_pts - av_gettime() / 1e6` is below
`-1.0`, the call only logs and releases the frame, and `frame_timer` is
unchanged. The reference is the reading itself, not the time elapsed since
`start()`. -/
theorem C22_wall_clock_drop (s : VideoPlayer) (q : FrameQueue) (frame : AVFrame)
    (clock_now delay_now : Int)
    (hpop : s.video_frame_q.pop = some (q, some frame))
    (hidx : s.audio_stream_index = -1)
    (hlate : (clock_now : ℚ) / 1000000 > video_pts_of s frame + 1) :
    diff_of s frame clock_now = video_pts_of s frame - (clock_now : ℚ) / 1000000 ∧
      ∃ s1 events, s.render_video_frame clock_now delay_now = some (s1, events) ∧
        events = [Event.log_drop (diff_of s frame clock_now), Event.av_frame_free frame] ∧
        (∀ e ∈ events, e.is_sleep = false ∧ e.is_display = false) ∧
        s1.frame_timer = s.frame_timer := by
  have hclock : s.get_audio_clock clock_now = (clock_now : ℚ) / 1000000 := by
    unfold get_audio_clock
    rw [if_pos hidx]
  have hdiff : diff_of s frame clock_now = video_pts_of s frame - (clock_now : ℚ) / 1000000 := by
    rw [diff_of, hclock]
  have hlt : diff_of s frame clock_now < -1 := by
    rw [hdiff]
    linarith
  have hd : diff_of { s with video_frame_q := q } frame clock_now < -1 := hlt
  have hr := render_frame_drop { s with video_frame_q := q } frame clock_now delay_now hd
  refine ⟨hdiff, _, _, (render_of_pop s q frame clock_now delay_now hpop).trans
    (congrArg some hr), rfl, ?_, rfl⟩
  intro e he
  simp only [List.mem_cons, List.mem_singleton, List.not_mem_nil, or_false] at he
  rcases he with rfl | rfl <;> exact ⟨rfl, rfl⟩

/-- A witness of C22: a frame at `video_pts = 5.0` on a player without audio
stream, when `av_gettime()` reads 1,700,000,000 s. -/
theorem C22_wall_clock_drop_witness :
    (demo_player_no_audio_with 5000).video_frame_q.pop =
        some (FrameQueue.new, some (demo_frame 5000)) ∧
      (demo_player_no_audio_with 5000).audio_stream_index = -1 ∧
      ((1700000000000000 : Int) : ℚ) / 1000000 >
        video_pts_of (demo_player_no_audio_with 5000) (demo_frame 5000) + 1 ∧
      diff_of (demo_player_no_audio_with 5000) (demo_frame 5000) 1700000000000000 =
        video_pts_of (demo_player_no_audio_with 5000) (demo_frame 5000) -
          ((1700000000000000 : Int) : ℚ) / 1000000 ∧
      ∃ s1 events, (demo_player_no_audio_with 5000).render_video_frame 1700000000000000
          1700000000000000 = some (s1, events) ∧
        events = [Event.log_drop
            (diff_of (demo_player_no_audio_with 5000) (demo_frame 5000) 1700000000000000),
          Event.av_frame_free (demo_frame 5000)] ∧
        (∀ e ∈ events, e.is_sleep = false ∧ e.is_display = false) ∧
        s1.frame_timer = (demo_player_no_audio_with 5000).frame_timer :=
  ⟨rfl, rfl,
    by norm_num [video_pts_of, demo_player_no_audio_with, demo_player_no_audio, demo_player,
      demo_frame, demo_video_stream, av_q2d, AV_NOPTS_VALUE],
    C22_wall_clock_drop (demo_player_no_audio_with 5000) FrameQueue.new (demo_frame 5000)
      1700000000000000 1700000000000000 rfl rfl
      (by norm_num [video_pts_of, demo_player_no_audio_with, demo_player_no_audio,
        demo_player, demo_frame, demo_video_stream, av_q2d, AV_NOPTS_VALUE])⟩

end PacingClaimsStored

/-! ## The backpressure test of the demux task -/

section BackpressureClaims

variable {α : Type}

end BackpressureClaims

/-! ## The cursors of the audio buffer -/

section CursorLemmas

open VideoPlayer

end CursorLemmas

/-! ## The audio cursor claim -/

section CursorClaims

open VideoPlayer

end CursorClaims

end VP
